import Mathlib

/-!
Verification development for the GrafikZabka employee-scheduling backend
(`backend/main.go`) and its schedule-view hour computation (frontend,
`calculateHours`).  Go maps are embedded as association lists read through
`mapGet` (first binding wins, mirroring a Go map where keys are unique);
`float64` fields are embedded as `ℚ`; timestamps (`time.Time`) as `Nat`.
-/

namespace GrafikZabka

/-- Association-list lookup: the value of the first binding of key `k`.
Mirrors Go map indexing (a missing key yields `none`, the zero-value case). -/
def mapGet {κ α : Type} [DecidableEq κ] : List (κ × α) → κ → Option α
  | [], _ => none
  | (k', v) :: t, k => if k' = k then some v else mapGet t k

/-- Association-list update: replace the first binding of `k`, or append a new
binding when `k` is absent.  Mirrors Go map assignment `m[k] = v`. -/
def mapSet {κ α : Type} [DecidableEq κ] : List (κ × α) → κ → α → List (κ × α)
  | [], k, v => [(k, v)]
  | (k', v') :: t, k, v => if k' = k then (k, v) :: t else (k', v') :: mapSet t k v

/-- Association-list deletion of every binding of `k`.  Mirrors Go `delete(m, k)`
(a Go map holds at most one binding per key). -/
def mapDel {κ α : Type} [DecidableEq κ] : List (κ × α) → κ → List (κ × α)
  | [], _ => []
  | (k', v) :: t, k => if k' = k then mapDel t k else (k', v) :: mapDel t k

/-- Remove the first occurrence of `x`, mirroring the Go slice-removal loop
`for i, v := range l { if v == x { l = append(l[:i], l[i+1:]...); break } }`. -/
def eraseFirst {α : Type} [DecidableEq α] : List α → α → List α
  | [], _ => []
  | a :: t, x => if a = x then t else a :: eraseFirst t x

theorem mapGet_mapSet_eq {κ α : Type} [DecidableEq κ] (l : List (κ × α)) (k : κ) (v : α) :
    mapGet (mapSet l k v) k = some v := by
  induction l with
  | nil => simp [mapGet, mapSet]
  | cons p t ih =>
    obtain ⟨pk, pv⟩ := p
    by_cases h : pk = k
    · simp [mapSet, h, mapGet]
    · simp [mapSet, h, mapGet, ih]

theorem mapGet_mapSet_ne {κ α : Type} [DecidableEq κ] (l : List (κ × α)) (k k' : κ) (v : α)
    (h : k' ≠ k) : mapGet (mapSet l k v) k' = mapGet l k' := by
  have h' : k ≠ k' := Ne.symm h
  induction l with
  | nil => simp [mapGet, mapSet, h']
  | cons p t ih =>
    obtain ⟨pk, pv⟩ := p
    by_cases hp : pk = k
    · simp [mapSet, hp, mapGet, h']
    · by_cases hp' : pk = k'
      · simp [mapSet, hp, mapGet, hp', h, h']
      · simp [mapSet, hp, mapGet, hp', ih]

theorem mapGet_mapDel_eq {κ α : Type} [DecidableEq κ] (l : List (κ × α)) (k : κ) :
    mapGet (mapDel l k) k = none := by
  induction l with
  | nil => simp [mapGet, mapDel]
  | cons p t ih =>
    obtain ⟨pk, pv⟩ := p
    by_cases h : pk = k
    · simp [mapDel, h, ih]
    · simp [mapDel, h, mapGet, ih]

theorem mapGet_mapDel_ne {κ α : Type} [DecidableEq κ] (l : List (κ × α)) (k k' : κ)
    (h : k' ≠ k) : mapGet (mapDel l k) k' = mapGet l k' := by
  have h' : k ≠ k' := Ne.symm h
  induction l with
  | nil => simp [mapGet, mapDel]
  | cons p t ih =>
    obtain ⟨pk, pv⟩ := p
    by_cases hp : pk = k
    · simp [mapDel, hp, mapGet, h', ih]
    · by_cases hp' : pk = k'
      · simp [mapDel, hp, mapGet, hp', h]
      · simp [mapDel, hp, mapGet, hp', ih]

theorem mapDel_mapDel {κ α : Type} [DecidableEq κ] (l : List (κ × α)) (k : κ) :
    mapDel (mapDel l k) k = mapDel l k := by
  induction l with
  | nil => simp [mapDel]
  | cons p t ih =>
    obtain ⟨pk, pv⟩ := p
    by_cases h : pk = k
    · simp [mapDel, h, ih]
    · simp [mapDel, h, ih]

theorem mem_of_mapGet_eq_some {κ α : Type} [DecidableEq κ] {l : List (κ × α)} {k : κ} {v : α}
    (h : mapGet l k = some v) : (k, v) ∈ l := by
  induction l with
  | nil => simp [mapGet] at h
  | cons p t ih =>
    obtain ⟨pk, pv⟩ := p
    by_cases hp : pk = k
    · simp only [mapGet, if_pos hp] at h
      have : (pk, pv) = (k, v) := by rw [hp, Option.some_inj.mp h]
      rw [← this]
      exact List.mem_cons_self _ _
    · simp only [mapGet, if_neg hp] at h
      exact List.mem_cons_of_mem _ (ih h)

theorem mapSet_self {κ α : Type} [DecidableEq κ] {l : List (κ × α)} {k : κ} {v : α}
    (h : mapGet l k = some v) : mapSet l k v = l := by
  induction l with
  | nil => simp [mapGet] at h
  | cons p t ih =>
    obtain ⟨pk, pv⟩ := p
    by_cases hp : pk = k
    · simp only [mapGet, if_pos hp] at h
      simp [mapSet, hp, Option.some_inj.mp h]
    · simp only [mapGet, if_neg hp] at h
      simp [mapSet, hp, ih h]

theorem isSome_mapGet_mapSet {κ α : Type} [DecidableEq κ] (l : List (κ × α)) (k k' : κ) (v : α)
    (hk : (mapGet l k).isSome) :
    (mapGet (mapSet l k v) k').isSome = (mapGet l k').isSome := by
  by_cases h : k' = k
  · subst h
    simp [mapGet_mapSet_eq, hk]
  · rw [mapGet_mapSet_ne _ _ _ _ h]

theorem mem_of_mem_eraseFirst {α : Type} [DecidableEq α] {l : List α} {a x : α}
    (h : x ∈ eraseFirst l a) : x ∈ l := by
  induction l with
  | nil => simpa [eraseFirst] using h
  | cons b t ih =>
    by_cases hb : b = a
    · simp only [eraseFirst, if_pos hb] at h
      exact List.mem_cons_of_mem _ h
    · simp only [eraseFirst, if_neg hb, List.mem_cons] at h
      rcases h with h | h
      · simp [h]
      · exact List.mem_cons_of_mem _ (ih h)

theorem mem_eraseFirst_of_ne {α : Type} [DecidableEq α] {l : List α} {a x : α}
    (hx : x ≠ a) (h : x ∈ l) : x ∈ eraseFirst l a := by
  induction l with
  | nil => simpa using h
  | cons b t ih =>
    by_cases hb : b = a
    · simp only [eraseFirst, if_pos hb]
      rcases List.mem_cons.mp h with h | h
      · exact absurd (h.trans hb) hx
      · exact h
    · simp only [eraseFirst, if_neg hb, List.mem_cons]
      rcases List.mem_cons.mp h with h | h
      · exact Or.inl h
      · exact Or.inr (ih h)

theorem nodup_eraseFirst {α : Type} [DecidableEq α] {l : List α} (a : α)
    (h : l.Nodup) : (eraseFirst l a).Nodup := by
  induction l with
  | nil => simpa [eraseFirst] using h
  | cons b t ih =>
    rcases List.nodup_cons.mp h with ⟨hb, ht⟩
    by_cases hba : b = a
    · simpa [eraseFirst, hba] using ht
    · simp only [eraseFirst, if_neg hba]
      exact List.nodup_cons.mpr ⟨fun hmem => hb (mem_of_mem_eraseFirst hmem), ih ht⟩

theorem not_mem_eraseFirst_self {α : Type} [DecidableEq α] {l : List α} {a : α}
    (h : l.Nodup) : a ∉ eraseFirst l a := by
  induction l with
  | nil => simp [eraseFirst]
  | cons b t ih =>
    rcases List.nodup_cons.mp h with ⟨hb, ht⟩
    by_cases hba : b = a
    · simp only [eraseFirst, if_pos hba]
      exact fun hmem => hb (hba ▸ hmem)
    · simp only [eraseFirst, if_neg hba, List.mem_cons]
      rintro (h' | h')
      · exact hba h'.symm
      · exact ih ht h'

theorem eraseFirst_of_not_mem {α : Type} [DecidableEq α] {l : List α} {a : α}
    (h : a ∉ l) : eraseFirst l a = l := by
  induction l with
  | nil => simp [eraseFirst]
  | cons b t ih =>
    simp only [List.mem_cons, not_or] at h
    have hba : b ≠ a := fun hb => h.1 hb.symm
    simp [eraseFirst, hba, ih h.2]

/-! Data model (`main.go` 70-94).  `Employee.hourlyRate` is a Go `float64`,
embedded as `ℚ`; `Shop.createdAt`/`updatedAt` are `time.Time`, embedded as `Nat`. -/

/-- Roster entry (`Employee`, main.go 70-74). -/
structure Employee where
  email : String
  name : String
  hourlyRate : ℚ
  deriving DecidableEq

/-- Shop record (`Shop`, main.go 76-83).  `employees` is keyed by employee
email, `spreadsheets` by year. -/
structure Shop where
  id : String
  name : String
  employees : List (String × Employee)
  spreadsheets : List (Nat × String)
  createdAt : Nat
  updatedAt : Nat
  deriving DecidableEq

/-- The two registry maps (`employerShops` and `employeeShops`, main.go 29-30):
employer email → (shop id → Shop), and employee email → list of shop ids. -/
structure RegState where
  employerShops : List (String × List (String × Shop))
  employeeShops : List (String × List String)
  deriving DecidableEq

/-- Body of POST/DELETE employee-management requests
(`EmployeeManagementRequest`, main.go 89-94). -/
structure EmployeeManagementRequest where
  shopID : String
  employeeEmail : String
  employeeName : String
  hourlyRate : ℚ
  deriving DecidableEq

/-- Two-level shop lookup, mirroring Go's `employerShops[emp][sid]` with the
comma-ok idiom (`none` when the employer map is nil or the shop key absent). -/
def getShop (s : RegState) (emp sid : String) : Option Shop :=
  (mapGet s.employerShops emp).bind (fun shops => mapGet shops sid)

/-- Reverse-index read `employeeShops[e]`; a missing key reads as the nil
slice, i.e. the empty list. -/
def revList (s : RegState) (e : String) : List String :=
  (mapGet s.employeeShops e).getD []

/-- ASCII lowercase of one character; model of what Go's `strings.ToLower`
does on the ASCII range (all strings in the claims are ASCII). -/
def lowerChar (c : Char) : Char :=
  if 'A' ≤ c ∧ c ≤ 'Z' then Char.ofNat (c.toNat + 32) else c

/-- Model of Go `strings.ToLower` (ASCII range). -/
def goToLower (s : String) : String := ⟨s.data.map lowerChar⟩

/-- ASCII whitespace test; model of `unicode.IsSpace` on the ASCII range. -/
def isSpaceChar (c : Char) : Bool :=
  c == ' ' || c == '\t' || c == '\n' || c == '\r'

/-- Model of Go `strings.TrimSpace` (ASCII range): drop leading and trailing
whitespace. -/
def goTrimSpace (s : String) : String :=
  ⟨((s.data.dropWhile isSpaceChar).reverse.dropWhile isSpaceChar).reverse⟩

/-- The built-in employer allow-list used when `EMPLOYER_EMAILS` is unset
(`getEmployerEmails`, main.go 235-241). -/
def defaultEmployerEmails : List String :=
  ["maciek.moczadlo@gmail.com", "employer1@example.com", "employer2@example.com"]

/-- Static allow-list membership (`isEmployer`, main.go 243-252): the session
email and each configured employer email are trimmed and lowercased before
comparison.  `allowList` models the result of `getEmployerEmails()`. -/
def isEmployer (allowList : List String) (email : String) : Bool :=
  allowList.any (fun employer =>
    goToLower (goTrimSpace employer) == goToLower (goTrimSpace email))

/-- Model of `findEmployersForEmployee` (main.go 254-274): every employer
owning a shop whose id occurs in the employee's reverse-index list (one entry
per matching (employer, shop) pair, because the inner `break` only leaves the
innermost loop). -/
def findEmployersForEmployee (s : RegState) (e : String) : List String :=
  s.employerShops.flatMap (fun p =>
    (p.2.filter (fun q => decide (q.1 ∈ revList s e))).map (fun _ => p.1))

/-- Model of `getUserRole` (main.go 304-312). -/
def getUserRole (allowList : List String) (s : RegState) (email : String) : String :=
  if isEmployer allowList email then "employer"
  else if (findEmployersForEmployee s email).length > 0 then "employee"
  else "unauthorized"

/-! Registry effects of the mutating HTTP handlers. Each function takes the
values the handler draws from the environment as parameters: `now` models
`time.Now()` and `shopID` of `createShopStep` models `generateShopID()`.
Validation failures and missing-shop failures leave the registry unchanged
(the handler returns 400/404 before mutating). -/

/-- The Go assignment `employerShops[emp][sid] = sh` (initialising the inner
map when the employer key is absent, as POST /api/shops does). -/
def writeShopMap (s : RegState) (emp sid : String) (sh : Shop) : RegState :=
  let es := mapSet s.employerShops emp (mapSet ((mapGet s.employerShops emp).getD []) sid sh)
  { s with employerShops := es }

/-- Registry effect of POST /api/shops (`handleShops`, main.go 1091-1133):
reject a name that is empty after trimming, otherwise insert a fresh shop with
an empty roster and empty document index under the calling employer. -/
def createShopStep (s : RegState) (emp name shopID : String) (now : Nat) : RegState :=
  if goTrimSpace name = "" then s
  else writeShopMap s emp shopID ⟨shopID, goTrimSpace name, [], [], now, now⟩

/-- The Go assignment `employeeShops[k] = L`. -/
def setEmployeeShops (s : RegState) (k : String) (L : List String) : RegState :=
  { s with employeeShops := mapSet s.employeeShops k L }

/-- The roster entry stored by POST /api/employees: trimmed email and name,
with a non-positive hourly rate defaulted to 30.0 (main.go 1469-1471,
1486-1490). -/
def newRosterEmployee (email name : String) (rate : ℚ) : Employee :=
  ⟨goTrimSpace email, goTrimSpace name, if rate ≤ 0 then (30 : ℚ) else rate⟩

/-- Mutation core of POST /api/employees once the shop is resolved: upsert the
roster entry under the request email, bump `updatedAt`, and append the shop id
to the reverse-index list when absent.  `revList s email` is Go's
`employeeShops[email]` read (nil reads as the empty slice); when the id is
already present the handler leaves the list as it was, which equals
re-storing the same list (`mapSet_self`). -/
def addEmployeeApply (s : RegState) (emp shopID email name : String) (rate : ℚ)
    (now : Nat) (shop : Shop) : RegState :=
  if shopID ∈ revList s email then
    setEmployeeShops
      (writeShopMap s emp shopID
        { shop with employees := mapSet shop.employees email (newRosterEmployee email name rate),
                    updatedAt := now })
      email (revList s email)
  else
    setEmployeeShops
      (writeShopMap s emp shopID
        { shop with employees := mapSet shop.employees email (newRosterEmployee email name rate),
                    updatedAt := now })
      email (revList s email ++ [shopID])

/-- Registry effect of POST /api/employees (`handleEmployees`, main.go
1457-1548): validate, require the shop to exist with a non-empty id, then
apply `addEmployeeApply`. -/
def addEmployeeStep (s : RegState) (emp shopID email name : String) (rate : ℚ)
    (now : Nat) : RegState :=
  if shopID = "" ∨ goTrimSpace email = "" ∨ goTrimSpace name = "" then s
  else
    match getShop s emp shopID with
    | none => s
    | some shop =>
      if shop.id = "" then s
      else addEmployeeApply s emp shopID email name rate now shop

/-- Mutation core of employee removal once the shop is resolved: delete the
roster entry, bump `updatedAt`, and remove the first occurrence of the shop id
from the reverse-index list.  The Go loop reassigns `employeeShops[email]`
only when a match is found, so the reverse index changes exactly when
`shopID ∈ revList s email` (a nil/absent key reads as the empty list, which
contains no match). -/
def removeEmployeeApply (s : RegState) (emp shopID email : String) (now : Nat)
    (shop : Shop) : RegState :=
  if shopID ∈ revList s email then
    setEmployeeShops
      (writeShopMap s emp shopID
        { shop with employees := mapDel shop.employees email, updatedAt := now })
      email (eraseFirst (revList s email) shopID)
  else
    writeShopMap s emp shopID
      { shop with employees := mapDel shop.employees email, updatedAt := now }

/-- Registry effect shared by DELETE /api/employees (main.go 1550-1638) and
DELETE /api/shops (main.go 1135-1209): validate, require the shop key to be
present (comma-ok check), then apply `removeEmployeeApply`. -/
def removeEmployeeStep (s : RegState) (emp shopID email : String) (now : Nat) : RegState :=
  if shopID = "" ∨ email = "" then s
  else
    match getShop s emp shopID with
    | none => s
    | some shop => removeEmployeeApply s emp shopID email now shop

/-- DELETE /api/shops (`handleShops`, main.go 1135-1209) as status code plus
registry effect.  `body = none` models a request body that fails to decode
(including the empty body); despite the endpoint's name, the handler always
interprets the body as an employee-removal request and no branch deletes
a shop. -/
def handleShopsDeleteReq (s : RegState) (emp : String) (req : EmployeeManagementRequest)
    (now : Nat) : Nat × RegState :=
  if req.shopID = "" ∨ req.employeeEmail = "" then (400, s)
  else
    match getShop s emp req.shopID with
    | none => (404, s)
    | some _ => (200, removeEmployeeStep s emp req.shopID req.employeeEmail now)

/-- DELETE /api/shops with the request body decoding step: `body = none`
models a body that fails to decode (including the empty body the repository's
own frontend sends when deleting a shop), answered 400 before any change. -/
def handleShopsDelete (s : RegState) (emp : String)
    (body : Option EmployeeManagementRequest) (now : Nat) : Nat × RegState :=
  match body with
  | none => (400, s)
  | some req => handleShopsDeleteReq s emp req now

/-! Roster/reverse-index consistency. -/

/-- Whether employee `e` is in the roster of shop `sid` owned by `emp`. -/
def rosterHas (s : RegState) (emp sid e : String) : Bool :=
  match getShop s emp sid with
  | some shop => (mapGet shop.employees e).isSome
  | none => false

/-- Whether `emp` owns a shop stored under key `sid`. -/
def shopKeyExists (s : RegState) (emp sid : String) : Bool :=
  (getShop s emp sid).isSome

/-- Whether any employer owns a shop stored under key `sid` (decidable over
the registry's entries; used to state freshness of generated shop ids). -/
def sidExists (s : RegState) (sid : String) : Bool :=
  s.employerShops.any (fun p => (mapGet p.2 sid).isSome)

/-- Consistency of the registry: the roster/reverse-index biconditional of the
spec together with the representation facts every reachable state enjoys
(reverse-index lists have no duplicates; a shop id belongs to one employer). -/
structure Consistent (s : RegState) : Prop where
  forward : ∀ emp sid e, rosterHas s emp sid e = true → sid ∈ revList s e
  backward : ∀ e sid, sid ∈ revList s e → ∃ emp, rosterHas s emp sid e = true
  revNodup : ∀ e, (revList s e).Nodup
  uniq : ∀ emp1 emp2 sid, shopKeyExists s emp1 sid = true →
    shopKeyExists s emp2 sid = true → emp1 = emp2

theorem consistent_empty : Consistent ⟨[], []⟩ := by
  constructor
  · intro emp sid e h
    simp [rosterHas, getShop, mapGet] at h
  · intro e sid h
    simp [revList, mapGet] at h
  · intro e
    simp [revList, mapGet]
  · intro emp1 emp2 sid h1 _
    simp [shopKeyExists, getShop, mapGet] at h1

theorem getShop_writeShopMap (s : RegState) (emp sid : String) (sh : Shop) (a b : String) :
    getShop (writeShopMap s emp sid sh) a b =
      if a = emp ∧ b = sid then some sh else getShop s a b := by
  unfold writeShopMap getShop
  by_cases ha : a = emp
  · subst ha
    simp only [mapGet_mapSet_eq, Option.some_bind]
    by_cases hb : b = sid
    · subst hb
      simp [mapGet_mapSet_eq]
    · rw [mapGet_mapSet_ne _ _ _ _ hb]
      rcases houter : mapGet s.employerShops a with _ | shops
      · simp [hb, mapGet]
      · simp [hb]
  · rw [mapGet_mapSet_ne _ _ _ _ ha]
    simp [ha]

theorem revList_writeShopMap (s : RegState) (emp sid : String) (sh : Shop) (e : String) :
    revList (writeShopMap s emp sid sh) e = revList s e := rfl

theorem rosterHas_writeShopMap (s : RegState) (emp sid : String) (sh : Shop) (a b e : String) :
    rosterHas (writeShopMap s emp sid sh) a b e =
      if a = emp ∧ b = sid then (mapGet sh.employees e).isSome else rosterHas s a b e := by
  unfold rosterHas
  rw [getShop_writeShopMap]
  by_cases h : a = emp ∧ b = sid
  · simp [h]
  · simp [h]

theorem shopKeyExists_writeShopMap (s : RegState) (emp sid : String) (sh : Shop) (a b : String) :
    shopKeyExists (writeShopMap s emp sid sh) a b =
      if a = emp ∧ b = sid then true else shopKeyExists s a b := by
  unfold shopKeyExists
  rw [getShop_writeShopMap]
  by_cases h : a = emp ∧ b = sid
  · simp [h]
  · simp [h]

theorem revList_setEmployeeShops (s : RegState) (k : String) (L : List String) (e : String) :
    revList (setEmployeeShops s k L) e = if e = k then L else revList s e := by
  unfold revList setEmployeeShops
  by_cases he : e = k
  · subst he
    simp [mapGet_mapSet_eq]
  · rw [mapGet_mapSet_ne _ _ _ _ he]
    simp [he]

theorem rosterHas_setEmployeeShops (s : RegState) (k : String) (L : List String) (a b e : String) :
    rosterHas (setEmployeeShops s k L) a b e = rosterHas s a b e := rfl

theorem shopKeyExists_setEmployeeShops (s : RegState) (k : String) (L : List String) (a b : String) :
    shopKeyExists (setEmployeeShops s k L) a b = shopKeyExists s a b := rfl

theorem shopKeyExists_eq_false_of_sidExists {s : RegState} {sid : String}
    (h : sidExists s sid = false) (emp : String) : shopKeyExists s emp sid = false := by
  unfold shopKeyExists getShop
  rcases houter : mapGet s.employerShops emp with _ | shops
  · simp
  · simp only [Option.some_bind]
    rcases hinner : mapGet shops sid with _ | sh
    · simp
    · exfalso
      have hmem := mem_of_mapGet_eq_some houter
      have hany : sidExists s sid = true := by
        unfold sidExists
        refine List.any_eq_true.mpr ⟨(emp, shops), hmem, ?_⟩
        simp [hinner]
      rw [hany] at h
      exact absurd h (by simp)

theorem rosterHas_eq_of_getShop {s : RegState} {a b : String} {sh : Shop}
    (h : getShop s a b = some sh) (e : String) :
    rosterHas s a b e = (mapGet sh.employees e).isSome := by
  unfold rosterHas
  rw [h]

theorem shopKeyExists_of_rosterHas {s : RegState} {a b e : String}
    (h : rosterHas s a b e = true) : shopKeyExists s a b = true := by
  unfold rosterHas at h
  unfold shopKeyExists
  rcases hg : getShop s a b with _ | sh
  · rw [hg] at h
    simp at h
  · simp [hg]

theorem shopKeyExists_writeShopMap_present {s : RegState} {emp sid : String}
    (h : shopKeyExists s emp sid = true) (sh : Shop) (a b : String) :
    shopKeyExists (writeShopMap s emp sid sh) a b = shopKeyExists s a b := by
  rw [shopKeyExists_writeShopMap]
  by_cases hab : a = emp ∧ b = sid
  · rw [if_pos hab]
    obtain ⟨h1, h2⟩ := hab
    subst h1
    subst h2
    exact h.symm
  · rw [if_neg hab]

theorem consistent_createShopStep {s : RegState} (hc : Consistent s)
    (emp name shopID : String) (now : Nat) (hfresh : sidExists s shopID = false) :
    Consistent (createShopStep s emp name shopID now) := by
  unfold createShopStep
  by_cases hname : goTrimSpace name = ""
  · simpa [hname] using hc
  · rw [if_neg hname]
    have hkey := shopKeyExists_eq_false_of_sidExists hfresh
    constructor
    · intro a b e h
      rw [rosterHas_writeShopMap] at h
      rw [revList_writeShopMap]
      by_cases hab : a = emp ∧ b = shopID
      · rw [if_pos hab] at h
        simp [mapGet] at h
      · rw [if_neg hab] at h
        exact hc.forward a b e h
    · intro e sid h
      rw [revList_writeShopMap] at h
      obtain ⟨a, ha⟩ := hc.backward e sid h
      refine ⟨a, ?_⟩
      rw [rosterHas_writeShopMap]
      by_cases hab : a = emp ∧ sid = shopID
      · exfalso
        have hx := shopKeyExists_of_rosterHas ha
        rw [hab.2, hkey a] at hx
        simp at hx
      · rw [if_neg hab]
        exact ha
    · intro e
      rw [revList_writeShopMap]
      exact hc.revNodup e
    · intro a1 a2 sid h1 h2
      rw [shopKeyExists_writeShopMap] at h1 h2
      by_cases hb1 : a1 = emp ∧ sid = shopID
      · by_cases hb2 : a2 = emp ∧ sid = shopID
        · rw [hb1.1, hb2.1]
        · exfalso
          rw [if_neg hb2, hb1.2, hkey a2] at h2
          simp at h2
      · rw [if_neg hb1] at h1
        by_cases hb2 : a2 = emp ∧ sid = shopID
        · exfalso
          rw [hb2.2, hkey a1] at h1
          simp at h1
        · rw [if_neg hb2] at h2
          exact hc.uniq a1 a2 sid h1 h2

theorem consistent_addCore {s' s : RegState} (hc : Consistent s)
    {emp sid email : String} {shop : Shop} {newEmp : Employee}
    (hshop : getShop s emp sid = some shop)
    (hR : ∀ a b e, rosterHas s' a b e =
      if a = emp ∧ b = sid then (mapGet (mapSet shop.employees email newEmp) e).isSome
      else rosterHas s a b e)
    (hK : ∀ a b, shopKeyExists s' a b = shopKeyExists s a b)
    (hRLne : ∀ e, e ≠ email → revList s' e = revList s e)
    (hsub : revList s email ⊆ revList s' email)
    (hsup : ∀ x ∈ revList s' email, x ∈ revList s email ∨ x = sid)
    (hsidmem : sid ∈ revList s' email)
    (hnd : (revList s' email).Nodup) :
    Consistent s' := by
  have hkey : shopKeyExists s emp sid = true := by
    unfold shopKeyExists
    rw [hshop]
    rfl
  constructor
  · intro a b e h
    rw [hR] at h
    by_cases hab : a = emp ∧ b = sid
    · obtain ⟨h1, h2⟩ := hab
      subst h1
      subst h2
      rw [if_pos ⟨rfl, rfl⟩] at h
      by_cases he : e = email
      · subst he
        exact hsidmem
      · rw [mapGet_mapSet_ne _ _ _ _ he] at h
        have hold : rosterHas s a b e = true := by
          rw [rosterHas_eq_of_getShop hshop]
          exact h
        have := hc.forward a b e hold
        rw [hRLne e he]
        exact this
    · rw [if_neg hab] at h
      have hmem := hc.forward a b e h
      by_cases he : e = email
      · subst he
        exact hsub hmem
      · rw [hRLne e he]
        exact hmem
  · intro e b h
    by_cases he : e = email
    · subst he
      rcases hsup b h with hold | hnew
      · obtain ⟨a, ha⟩ := hc.backward e b hold
        refine ⟨a, ?_⟩
        rw [hR]
        by_cases hab : a = emp ∧ b = sid
        · rw [if_pos hab]
          simp [mapGet_mapSet_eq]
        · rw [if_neg hab]
          exact ha
      · subst hnew
        refine ⟨emp, ?_⟩
        rw [hR, if_pos ⟨rfl, rfl⟩]
        simp [mapGet_mapSet_eq]
    · rw [hRLne e he] at h
      obtain ⟨a, ha⟩ := hc.backward e b h
      refine ⟨a, ?_⟩
      rw [hR]
      by_cases hab : a = emp ∧ b = sid
      · obtain ⟨h1, h2⟩ := hab
        subst h1
        subst h2
        rw [if_pos ⟨rfl, rfl⟩]
        rw [rosterHas_eq_of_getShop hshop] at ha
        rw [mapGet_mapSet_ne _ _ _ _ he]
        exact ha
      · rw [if_neg hab]
        exact ha
  · intro e
    by_cases he : e = email
    · subst he
      exact hnd
    · rw [hRLne e he]
      exact hc.revNodup e
  · intro a1 a2 b h1 h2
    rw [hK] at h1 h2
    exact hc.uniq a1 a2 b h1 h2

theorem consistent_removeCore {s' s : RegState} (hc : Consistent s)
    {emp sid email : String} {shop : Shop}
    (hshop : getShop s emp sid = some shop)
    (hR : ∀ a b e, rosterHas s' a b e =
      if a = emp ∧ b = sid then (mapGet (mapDel shop.employees email) e).isSome
      else rosterHas s a b e)
    (hK : ∀ a b, shopKeyExists s' a b = shopKeyExists s a b)
    (hRLne : ∀ e, e ≠ email → revList s' e = revList s e)
    (hRLe : ∀ x, x ∈ revList s' email ↔ x ∈ revList s email ∧ x ≠ sid)
    (hRLnd : (revList s' email).Nodup) :
    Consistent s' := by
  have hkey : shopKeyExists s emp sid = true := by
    unfold shopKeyExists
    rw [hshop]
    rfl
  constructor
  · intro a b e h
    rw [hR] at h
    by_cases hab : a = emp ∧ b = sid
    · obtain ⟨h1, h2⟩ := hab
      subst h1
      subst h2
      rw [if_pos ⟨rfl, rfl⟩] at h
      by_cases he : e = email
      · subst he
        rw [mapGet_mapDel_eq] at h
        simp at h
      · rw [mapGet_mapDel_ne _ _ _ he] at h
        have hold : rosterHas s a b e = true := by
          rw [rosterHas_eq_of_getShop hshop]
          exact h
        rw [hRLne e he]
        exact hc.forward a b e hold
    · rw [if_neg hab] at h
      have hmem := hc.forward a b e h
      by_cases he : e = email
      · subst he
        refine (hRLe b).mpr ⟨hmem, ?_⟩
        intro hb
        subst hb
        have hx := shopKeyExists_of_rosterHas h
        have := hc.uniq a emp b hx hkey
        exact hab ⟨this, rfl⟩
      · rw [hRLne e he]
        exact hmem
  · intro e b h
    by_cases he : e = email
    · subst he
      obtain ⟨hmem, hne⟩ := (hRLe b).mp h
      obtain ⟨a, ha⟩ := hc.backward e b hmem
      refine ⟨a, ?_⟩
      rw [hR]
      by_cases hab : a = emp ∧ b = sid
      · exact absurd hab.2 hne
      · rw [if_neg hab]
        exact ha
    · rw [hRLne e he] at h
      obtain ⟨a, ha⟩ := hc.backward e b h
      refine ⟨a, ?_⟩
      rw [hR]
      by_cases hab : a = emp ∧ b = sid
      · obtain ⟨h1, h2⟩ := hab
        subst h1
        subst h2
        rw [if_pos ⟨rfl, rfl⟩]
        rw [rosterHas_eq_of_getShop hshop] at ha
        rw [mapGet_mapDel_ne _ _ _ he]
        exact ha
      · rw [if_neg hab]
        exact ha
  · intro e
    by_cases he : e = email
    · subst he
      exact hRLnd
    · rw [hRLne e he]
      exact hc.revNodup e
  · intro a1 a2 b h1 h2
    rw [hK] at h1 h2
    exact hc.uniq a1 a2 b h1 h2

theorem consistent_addEmployeeStep {s : RegState} (hc : Consistent s)
    (emp shopID email name : String) (rate : ℚ) (now : Nat) :
    Consistent (addEmployeeStep s emp shopID email name rate now) := by
  unfold addEmployeeStep
  by_cases hval : shopID = "" ∨ goTrimSpace email = "" ∨ goTrimSpace name = ""
  · simpa [hval] using hc
  · rw [if_neg hval]
    cases hshop : getShop s emp shopID with
    | none => exact hc
    | some shop =>
      show Consistent (if shop.id = "" then s
        else addEmployeeApply s emp shopID email name rate now shop)
      by_cases hid : shop.id = ""
      · simpa [hid] using hc
      · rw [if_neg hid]
        have hkey : shopKeyExists s emp shopID = true := by
          unfold shopKeyExists
          rw [hshop]
          rfl
        unfold addEmployeeApply
        by_cases hmem : shopID ∈ revList s email
        · rw [if_pos hmem]
          have hL : ∀ e', revList (setEmployeeShops
              (writeShopMap s emp shopID
                { shop with employees := mapSet shop.employees email (newRosterEmployee email name rate),
                            updatedAt := now })
              email (revList s email)) e' =
              if e' = email then revList s email else revList s e' := by
            intro e'
            rw [revList_setEmployeeShops]
            rfl
          refine @consistent_addCore _ s hc emp shopID email shop (newRosterEmployee email name rate) hshop ?_ ?_ ?_ ?_ ?_ ?_ ?_
          · intro a b e
            rw [rosterHas_setEmployeeShops, rosterHas_writeShopMap]
          · intro a b
            rw [shopKeyExists_setEmployeeShops]
            exact shopKeyExists_writeShopMap_present hkey _ a b
          · intro e he
            rw [hL e, if_neg he]
          · intro x hx
            rw [hL email, if_pos rfl]
            exact hx
          · intro x hx
            rw [hL email, if_pos rfl] at hx
            exact Or.inl hx
          · rw [hL email, if_pos rfl]
            exact hmem
          · rw [hL email, if_pos rfl]
            exact hc.revNodup email
        · rw [if_neg hmem]
          have hL : ∀ e', revList (setEmployeeShops
              (writeShopMap s emp shopID
                { shop with employees := mapSet shop.employees email (newRosterEmployee email name rate),
                            updatedAt := now })
              email (revList s email ++ [shopID])) e' =
              if e' = email then revList s email ++ [shopID] else revList s e' := by
            intro e'
            rw [revList_setEmployeeShops]
            rfl
          refine @consistent_addCore _ s hc emp shopID email shop (newRosterEmployee email name rate) hshop ?_ ?_ ?_ ?_ ?_ ?_ ?_
          · intro a b e
            rw [rosterHas_setEmployeeShops, rosterHas_writeShopMap]
          · intro a b
            rw [shopKeyExists_setEmployeeShops]
            exact shopKeyExists_writeShopMap_present hkey _ a b
          · intro e he
            rw [hL e, if_neg he]
          · intro x hx
            rw [hL email, if_pos rfl]
            exact List.mem_append_left _ hx
          · intro x hx
            rw [hL email, if_pos rfl] at hx
            rcases List.mem_append.mp hx with hx | hx
            · exact Or.inl hx
            · exact Or.inr (List.mem_singleton.mp hx)
          · rw [hL email, if_pos rfl]
            exact List.mem_append_right _ (List.mem_singleton.mpr rfl)
          · rw [hL email, if_pos rfl]
            refine List.nodup_append.mpr ⟨hc.revNodup email, List.nodup_singleton _, ?_⟩
            intro x hx hx'
            rw [List.mem_singleton.mp hx'] at hx
            exact hmem hx

theorem consistent_removeEmployeeStep {s : RegState} (hc : Consistent s)
    (emp shopID email : String) (now : Nat) :
    Consistent (removeEmployeeStep s emp shopID email now) := by
  unfold removeEmployeeStep
  by_cases hval : shopID = "" ∨ email = ""
  · simpa [hval] using hc
  · rw [if_neg hval]
    cases hshop : getShop s emp shopID with
    | none => exact hc
    | some shop =>
      show Consistent (removeEmployeeApply s emp shopID email now shop)
      have hkey : shopKeyExists s emp shopID = true := by
        unfold shopKeyExists
        rw [hshop]
        rfl
      unfold removeEmployeeApply
      by_cases hmem : shopID ∈ revList s email
      · rw [if_pos hmem]
        have hL : ∀ e', revList (setEmployeeShops
            (writeShopMap s emp shopID
              { shop with employees := mapDel shop.employees email, updatedAt := now })
            email (eraseFirst (revList s email) shopID)) e' =
            if e' = email then eraseFirst (revList s email) shopID else revList s e' := by
          intro e'
          rw [revList_setEmployeeShops]
          rfl
        refine @consistent_removeCore _ s hc emp shopID email shop hshop ?_ ?_ ?_ ?_ ?_
        · intro a b e
          rw [rosterHas_setEmployeeShops, rosterHas_writeShopMap]
        · intro a b
          rw [shopKeyExists_setEmployeeShops]
          exact shopKeyExists_writeShopMap_present hkey _ a b
        · intro e he
          rw [hL e, if_neg he]
        · intro x
          rw [hL email, if_pos rfl]
          constructor
          · intro hx
            refine ⟨mem_of_mem_eraseFirst hx, ?_⟩
            intro hxe
            rw [hxe] at hx
            exact not_mem_eraseFirst_self (hc.revNodup email) hx
          · intro ⟨hx, hne⟩
            exact mem_eraseFirst_of_ne hne hx
        · rw [hL email, if_pos rfl]
          exact nodup_eraseFirst _ (hc.revNodup email)
      · rw [if_neg hmem]
        refine @consistent_removeCore _ s hc emp shopID email shop hshop ?_ ?_ ?_ ?_ ?_
        · intro a b e
          rw [rosterHas_writeShopMap]
        · intro a b
          exact shopKeyExists_writeShopMap_present hkey _ a b
        · intro e _
          rfl
        · intro x
          constructor
          · intro hx
            have hx' : x ∈ revList s email := hx
            refine ⟨hx', ?_⟩
            intro hxe
            rw [hxe] at hx'
            exact hmem hx'
          · intro ⟨hx, _⟩
            exact hx
        · exact hc.revNodup email

/-- The four exported registry mutations reachable through the HTTP handlers
(there is no shop-deletion branch in the backend: DELETE /api/shops also
removes an employee). -/
inductive Mutation where
  | createShop (emp name shopID : String) (now : Nat)
  | addEmployee (emp shopID email name : String) (rate : ℚ) (now : Nat)
  | removeEmployee (emp shopID email : String) (now : Nat)
  | removeEmployeeViaShops (emp shopID email : String) (now : Nat)
  deriving DecidableEq

/-- Apply one mutation's registry effect. -/
def applyMut (s : RegState) : Mutation → RegState
  | .createShop emp name shopID now => createShopStep s emp name shopID now
  | .addEmployee emp shopID email name rate now =>
      addEmployeeStep s emp shopID email name rate now
  | .removeEmployee emp shopID email now => removeEmployeeStep s emp shopID email now
  | .removeEmployeeViaShops emp shopID email now =>
      (handleShopsDelete s emp (some ⟨shopID, email, "", 0⟩) now).2

/-- Apply a sequence of mutations in order. -/
def applySeq (s : RegState) : List Mutation → RegState
  | [] => s
  | m :: ms => applySeq (applyMut s m) ms

/-- Freshness of the id drawn by `generateShopID` for one mutation:
a created shop's id is not already stored for any employer. -/
def freshMut (s : RegState) : Mutation → Bool
  | .createShop _ _ shopID _ => !(sidExists s shopID)
  | _ => true

/-- Freshness of every generated shop id along a mutation sequence. -/
def freshSeq (s : RegState) : List Mutation → Bool
  | [] => true
  | m :: ms => freshMut s m && freshSeq (applyMut s m) ms

theorem consistent_handleShopsDelete {s : RegState} (hc : Consistent s) (emp : String)
    (body : Option EmployeeManagementRequest) (now : Nat) :
    Consistent (handleShopsDelete s emp body now).2 := by
  unfold handleShopsDelete
  cases body with
  | none => exact hc
  | some req =>
    show Consistent (handleShopsDeleteReq s emp req now).2
    unfold handleShopsDeleteReq
    by_cases hval : req.shopID = "" ∨ req.employeeEmail = ""
    · simpa [hval] using hc
    · rw [if_neg hval]
      cases hg : getShop s emp req.shopID with
      | none => exact hc
      | some sh => exact consistent_removeEmployeeStep hc _ _ _ _

theorem consistent_applyMut {s : RegState} (hc : Consistent s) (m : Mutation)
    (hf : freshMut s m = true) : Consistent (applyMut s m) := by
  cases m with
  | createShop emp name shopID now =>
    have hfr : sidExists s shopID = false := by
      simpa [freshMut] using hf
    exact consistent_createShopStep hc emp name shopID now hfr
  | addEmployee emp shopID email name rate now =>
    exact consistent_addEmployeeStep hc emp shopID email name rate now
  | removeEmployee emp shopID email now =>
    exact consistent_removeEmployeeStep hc emp shopID email now
  | removeEmployeeViaShops emp shopID email now =>
    exact consistent_handleShopsDelete hc emp _ now

theorem consistent_applySeq {s : RegState} (hc : Consistent s) {ms : List Mutation}
    (hf : freshSeq s ms = true) : Consistent (applySeq s ms) := by
  induction ms generalizing s with
  | nil => exact hc
  | cons m ms ih =>
    simp only [freshSeq, Bool.and_eq_true] at hf
    exact ih (consistent_applyMut hc m hf.1) hf.2

/-! Claim theorems C1-C4 over the registry model. -/

/-- C1: starting from a consistent registry state, after any sequence of the
exported mutations (shop creation, employee addition, employee removal via
either DELETE endpoint) with fresh generated shop ids, for every employer and
every shop the employer owns, an employee is in the shop's roster if and only
if the shop's id appears in that employee's reverse-index list. -/
theorem C1_roster_reverse_index_invariant (s : RegState) (ms : List Mutation)
    (hc : Consistent s) (hf : freshSeq s ms = true) (emp sid e : String)
    (hs : shopKeyExists (applySeq s ms) emp sid = true) :
    rosterHas (applySeq s ms) emp sid e = true ↔ sid ∈ revList (applySeq s ms) e := by
  have hc' := consistent_applySeq hc hf
  constructor
  · exact hc'.forward emp sid e
  · intro hmem
    obtain ⟨a, ha⟩ := hc'.backward e sid hmem
    have hae := hc'.uniq a emp sid (shopKeyExists_of_rosterHas ha) hs
    rwa [hae] at ha

/-- Demo mutation sequence used by the C1 witness: create a shop, then add one
employee to it. -/
def demoMuts : List Mutation :=
  [Mutation.createShop "boss@x" "Main" "s1" 0,
   Mutation.addEmployee "boss@x" "s1" "al@x" "Al" 35 1]

/-- Witness for C1 at the empty registry and a concrete mutation sequence. -/
theorem C1_roster_reverse_index_invariant_witness :
    Consistent ⟨[], []⟩ ∧ freshSeq ⟨[], []⟩ demoMuts = true ∧
    shopKeyExists (applySeq ⟨[], []⟩ demoMuts) "boss@x" "s1" = true ∧
    (rosterHas (applySeq ⟨[], []⟩ demoMuts) "boss@x" "s1" "al@x" = true ↔
      "s1" ∈ revList (applySeq ⟨[], []⟩ demoMuts) "al@x") :=
  ⟨consistent_empty, by decide, by decide,
    C1_roster_reverse_index_invariant ⟨[], []⟩ demoMuts consistent_empty (by decide)
      "boss@x" "s1" "al@x" (by decide)⟩

/-- Sample shop used by concrete witnesses and counterexamples. -/
def sampleShop : Shop := ⟨"s1", "Main", [("al@x", ⟨"al@x", "Al", 35⟩)], [], 0, 0⟩

/-- Sample registry: one employer owning one shop with one employee, and the
matching reverse index. -/
def sampleState : RegState := ⟨[("boss@x", [("s1", sampleShop)])], [("al@x", ["s1"])]⟩

theorem shopKeyExists_removeEmployeeStep (s : RegState) (emp sid e : String) (now : Nat)
    (a b : String) :
    shopKeyExists (removeEmployeeStep s emp sid e now) a b = shopKeyExists s a b := by
  unfold removeEmployeeStep
  by_cases hval : sid = "" ∨ e = ""
  · rw [if_pos hval]
  · rw [if_neg hval]
    cases hg : getShop s emp sid with
    | none => rfl
    | some shop =>
      show shopKeyExists (removeEmployeeApply s emp sid e now shop) a b = _
      have hkey : shopKeyExists s emp sid = true := by
        unfold shopKeyExists
        rw [hg]
        rfl
      unfold removeEmployeeApply
      by_cases hmem : sid ∈ revList s e
      · rw [if_pos hmem]
        rw [shopKeyExists_setEmployeeShops]
        exact shopKeyExists_writeShopMap_present hkey _ a b
      · rw [if_neg hmem]
        exact shopKeyExists_writeShopMap_present hkey _ a b

/-- C2 (code bug): DELETE /api/shops never deletes a shop.  Every execution of
the DELETE handler leaves shop existence untouched for every employer and shop
id (the handler only removes an employee from the shop's roster), and the
request the repository's own frontend sends for shop deletion
(`DELETE /api/shops?shop_id=...` with no JSON body, `ShopManagement.js` 47) is
answered 400 with the registry unchanged — the shop `s1` survives. -/
theorem C2_delete_shop_code_bug :
    (∀ (s : RegState) (emp : String) (body : Option EmployeeManagementRequest)
      (now : Nat) (a b : String),
      shopKeyExists (handleShopsDelete s emp body now).2 a b = shopKeyExists s a b) ∧
    handleShopsDelete sampleState "boss@x" none 5 = (400, sampleState) ∧
    shopKeyExists sampleState "boss@x" "s1" = true := by
  refine ⟨?_, by decide, by decide⟩
  intro s emp body now a b
  cases body with
  | none => rfl
  | some req =>
    show shopKeyExists (handleShopsDeleteReq s emp req now).2 a b = _
    unfold handleShopsDeleteReq
    by_cases hval : req.shopID = "" ∨ req.employeeEmail = ""
    · rw [if_pos hval]
    · rw [if_neg hval]
      cases hg : getShop s emp req.shopID with
      | none => rfl
      | some sh =>
        exact shopKeyExists_removeEmployeeStep s emp req.shopID req.employeeEmail now a b

theorem findEmployers_ne_nil_iff {s : RegState} (hc : Consistent s) (e : String) :
    (findEmployersForEmployee s e).length > 0 ↔ revList s e ≠ [] := by
  rw [gt_iff_lt, List.length_pos]
  constructor
  · intro h hrev
    apply h
    simp [findEmployersForEmployee, hrev]
  · intro hrev hnil
    obtain ⟨sid, hsid⟩ := List.exists_mem_of_ne_nil _ hrev
    obtain ⟨a, ha⟩ := hc.backward e sid hsid
    unfold rosterHas at ha
    rcases hg : getShop s a sid with _ | sh
    · rw [hg] at ha
      simp at ha
    · unfold getShop at hg
      rcases houter : mapGet s.employerShops a with _ | shops
      · rw [houter] at hg
        simp at hg
      · rw [houter] at hg
        simp only [Option.some_bind] at hg
        have hmemf : (sid, sh) ∈ shops.filter (fun q => decide (q.1 ∈ revList s e)) :=
          List.mem_filter.mpr ⟨mem_of_mapGet_eq_some hg, by simpa using hsid⟩
        have hmemm : a ∈ (shops.filter (fun q => decide (q.1 ∈ revList s e))).map
            (fun _ => a) := List.mem_map_of_mem _ hmemf
        have hsub : a ∈ findEmployersForEmployee s e := by
          unfold findEmployersForEmployee
          exact List.mem_flatMap.mpr ⟨(a, shops), mem_of_mapGet_eq_some houter, hmemm⟩
        rw [hnil] at hsub
        simp at hsub

/-- C3: with the registry consistent (as every reachable state is), for every
identity, `getUserRole` returns "employer" iff the identity is in the static
configured allow-list; otherwise it returns "employee" iff the identity's
reverse-index list is non-empty; otherwise it returns "unauthorized". -/
theorem C3_getUserRole_spec (allowList : List String) (s : RegState)
    (hc : Consistent s) (email : String) :
    (getUserRole allowList s email = "employer" ↔ isEmployer allowList email = true) ∧
    (isEmployer allowList email = false →
      (getUserRole allowList s email = "employee" ↔ revList s email ≠ [])) ∧
    (isEmployer allowList email = false → revList s email = [] →
      getUserRole allowList s email = "unauthorized") := by
  have hbridge := findEmployers_ne_nil_iff hc email
  by_cases hemp : isEmployer allowList email = true
  · have hrole : getUserRole allowList s email = "employer" := by
      simp [getUserRole, hemp]
    refine ⟨⟨fun _ => hemp, fun _ => hrole⟩, ?_, ?_⟩
    · intro hfalse
      rw [hemp] at hfalse
      simp at hfalse
    · intro hfalse
      rw [hemp] at hfalse
      simp at hfalse
  · have hemp' : isEmployer allowList email = false := by
      simpa using hemp
    by_cases hlen : (findEmployersForEmployee s email).length > 0
    · have hrole : getUserRole allowList s email = "employee" := by
        simp [getUserRole, hemp', hlen]
      refine ⟨⟨?_, ?_⟩, ?_, ?_⟩
      · intro h
        rw [hrole] at h
        exact absurd h (by decide)
      · intro h
        rw [h] at hemp'
        simp at hemp'
      · intro _
        rw [hrole]
        exact ⟨fun _ => hbridge.mp hlen, fun _ => rfl⟩
      · intro _ hrev
        exact absurd hrev (by simpa using hbridge.mp hlen)
    · have hrole : getUserRole allowList s email = "unauthorized" := by
        simp [getUserRole, hemp', hlen]
      refine ⟨⟨?_, ?_⟩, ?_, ?_⟩
      · intro h
        rw [hrole] at h
        exact absurd h (by decide)
      · intro h
        rw [h] at hemp'
        simp at hemp'
      · intro _
        rw [hrole]
        constructor
        · intro h
          exact absurd h (by decide)
        · intro hrev
          exact absurd (hbridge.mpr hrev) hlen
      · intro _ _
        exact hrole

/-- Witness for C3 at a concrete consistent state: `sampleState` with the
default allow-list; `al@x` is not allow-listed and has a non-empty reverse
index, so the role is "employee"; `boss@x` of the allow-list `["boss@x"]`
resolves to "employer". -/
theorem C3_getUserRole_spec_witness :
    Consistent ⟨[], []⟩ ∧
    (getUserRole defaultEmployerEmails ⟨[], []⟩ "al@x" = "employer" ↔
      isEmployer defaultEmployerEmails "al@x" = true) ∧
    (isEmployer defaultEmployerEmails "al@x" = false ∧
      revList (⟨[], []⟩ : RegState) "al@x" = [] ∧
      getUserRole defaultEmployerEmails ⟨[], []⟩ "al@x" = "unauthorized") := by
  refine ⟨consistent_empty, ?_, by decide, by decide, ?_⟩
  · exact (C3_getUserRole_spec defaultEmployerEmails ⟨[], []⟩ consistent_empty "al@x").1
  · exact (C3_getUserRole_spec defaultEmployerEmails ⟨[], []⟩ consistent_empty "al@x").2.2
      (by decide) (by decide)

theorem removeEmployeeStep_eq_apply {s : RegState} {emp sid e : String} {shop : Shop}
    (now : Nat) (hval : ¬(sid = "" ∨ e = "")) (hg : getShop s emp sid = some shop) :
    removeEmployeeStep s emp sid e now = removeEmployeeApply s emp sid e now shop := by
  unfold removeEmployeeStep
  rw [if_neg hval, hg]

/-- Spec-side helper for the amended C4: re-stamp the shop's `updatedAt`
field, leaving everything else unchanged. -/
def setShopUpdatedAt (s : RegState) (emp sid : String) (now : Nat) : RegState :=
  match getShop s emp sid with
  | none => s
  | some shop => writeShopMap s emp sid { shop with updatedAt := now }

/-- C4 counterexample: removing the same employee twice is not literally
idempotent, because the second call still bumps the shop's `updatedAt`
timestamp (main.go 1581); with call timestamps 0 and 1 the end states differ. -/
theorem C4_counterexample :
    removeEmployeeStep (removeEmployeeStep sampleState "boss@x" "s1" "al@x" 0)
      "boss@x" "s1" "al@x" 1 ≠
    removeEmployeeStep sampleState "boss@x" "s1" "al@x" 0 := by decide

/-- C4 (amended): for a shop that exists under the calling employer (valid
arguments, duplicate-free reverse index), removing the same employee twice
yields exactly the single-removal state except that the shop's `updatedAt`
carries the second call's timestamp; the second call is otherwise a no-op and
not an error. -/
theorem C4_remove_idempotent_up_to_updatedAt (s : RegState) (emp sid e : String)
    (t1 t2 : Nat) (hsid : sid ≠ "") (he : e ≠ "")
    (hs : shopKeyExists s emp sid = true) (hnd : (revList s e).Nodup) :
    removeEmployeeStep (removeEmployeeStep s emp sid e t1) emp sid e t2 =
      setShopUpdatedAt (removeEmployeeStep s emp sid e t1) emp sid t2 := by
  have hsome := hs
  unfold shopKeyExists at hsome
  rcases hg : getShop s emp sid with _ | shop
  · rw [hg] at hsome
    simp at hsome
  · have hval : ¬(sid = "" ∨ e = "") := by
      intro h
      rcases h with h | h
      · exact hsid h
      · exact he h
    have h1 : removeEmployeeStep s emp sid e t1 = removeEmployeeApply s emp sid e t1 shop :=
      removeEmployeeStep_eq_apply t1 hval hg
    have hgs1 : getShop (removeEmployeeApply s emp sid e t1 shop) emp sid =
        some { shop with employees := mapDel shop.employees e, updatedAt := t1 } := by
      unfold removeEmployeeApply
      by_cases hmem : sid ∈ revList s e
      · rw [if_pos hmem]
        show getShop (writeShopMap s emp sid _) emp sid = _
        rw [getShop_writeShopMap]
        simp
      · rw [if_neg hmem]
        rw [getShop_writeShopMap]
        simp
    have hrev1 : sid ∉ revList (removeEmployeeApply s emp sid e t1 shop) e := by
      unfold removeEmployeeApply
      by_cases hmem : sid ∈ revList s e
      · rw [if_pos hmem]
        have hrl : revList (setEmployeeShops
            (writeShopMap s emp sid
              { shop with employees := mapDel shop.employees e, updatedAt := t1 })
            e (eraseFirst (revList s e) sid)) e = eraseFirst (revList s e) sid := by
          rw [revList_setEmployeeShops]
          simp
        rw [hrl]
        exact not_mem_eraseFirst_self hnd
      · rw [if_neg hmem]
        exact hmem
    rw [h1]
    set s1 := removeEmployeeApply s emp sid e t1 shop with hs1
    rw [removeEmployeeStep_eq_apply t2 hval hgs1]
    unfold removeEmployeeApply setShopUpdatedAt
    rw [if_neg hrev1, hgs1]
    show writeShopMap s1 emp sid _ = writeShopMap s1 emp sid _
    congr 1
    simp [mapDel_mapDel]

/-! Hour computation of the schedule view (frontend `calculateHours`,
part_000 733-752).  The JS regex `(\d{1,2}):(\d{2})-(\d{1,2}):(\d{2})` is
embedded as an explicit leftmost-match scanner with the greedy-then-backtrack
behaviour of `\d{1,2}`; JS numbers are embedded as `ℚ`. -/

/-- Numeric value of a decimal digit character (JS `parseInt` on the captured
digit group). -/
def dval (c : Char) : Nat := c.toNat - 48

/-- Parse exactly two digits (the `\d{2}` minute group), returning the value
and the remaining characters. -/
def parseMM : List Char → Option (Nat × List Char)
  | a :: b :: rest =>
    if a.isDigit && b.isDigit then some (10 * dval a + dval b, rest) else none
  | _ => none

/-- Parse `:` followed by `\d{2}`. -/
def parseColonMM : List Char → Option (Nat × List Char)
  | ':' :: rest => parseMM rest
  | _ => none

/-- Parse `:` `\d{2}` `-`, the text between the start hour and the end hour. -/
def parseColonMMDash (l : List Char) : Option (Nat × List Char) :=
  match parseColonMM l with
  | some (m, '-' :: rest) => some (m, rest)
  | _ => none

/-- Parse the end time `\d{1,2}:\d{2}`: the hour group is greedy (two digits
first) and backtracks to one digit, as the JS regex engine does; trailing
characters are ignored. -/
def parseEndHM : List Char → Option (Nat × Nat)
  | a :: rest =>
    if a.isDigit then
      match rest with
      | b :: rest2 =>
        if b.isDigit then
          match parseColonMM rest2 with
          | some (m, _) => some (10 * dval a + dval b, m)
          | none =>
            match parseColonMM rest with
            | some (m, _) => some (dval a, m)
            | none => none
        else
          match parseColonMM rest with
          | some (m, _) => some (dval a, m)
          | none => none
      | [] => none
    else none
  | [] => none

/-- One-digit-start-hour fallback of `matchAt`. -/
def matchAtOne (a : Char) (rest : List Char) : Option (Nat × Nat × Nat × Nat) :=
  match parseColonMMDash rest with
  | some (sm, rest3) =>
    match parseEndHM rest3 with
    | some (eh, em) => some (dval a, sm, eh, em)
    | none => none
  | none => none

/-- Attempt the whole pattern `(\d{1,2}):(\d{2})-(\d{1,2}):(\d{2})` at this
position: greedy two-digit start hour, falling back to one digit whenever the
rest of the pattern fails, as the JS regex engine backtracks. -/
def matchAt : List Char → Option (Nat × Nat × Nat × Nat)
  | a :: rest =>
    if a.isDigit then
      match rest with
      | b :: rest2 =>
        if b.isDigit then
          match parseColonMMDash rest2 with
          | some (sm, rest3) =>
            match parseEndHM rest3 with
            | some (eh, em) => some (10 * dval a + dval b, sm, eh, em)
            | none => matchAtOne a rest
          | none => matchAtOne a rest
        else matchAtOne a rest
      | [] => matchAtOne a rest
    else none
  | [] => none

/-- Leftmost match of the pattern over the character list, as JS
`String.prototype.match` scans an unanchored regex. -/
def searchMatch : List Char → Option (Nat × Nat × Nat × Nat)
  | [] => none
  | a :: rest =>
    match matchAt (a :: rest) with
    | some r => some r
    | none => searchMatch rest

/-- Model of the schedule view's `calculateHours` (part_000 733-752): the
day-off marker `DW` and the empty string contribute zero (`!timeRange` is the
empty-string test on string input); otherwise the first substring matching
`(\d{1,2}):(\d{2})-(\d{1,2}):(\d{2})` determines end minus start in hours,
with 24 hours added to the end when it is earlier than the start; a string
without a match contributes zero. -/
def calculateHours (timeRange : String) : ℚ :=
  if timeRange = "" ∨ timeRange = "DW" then 0
  else
    match searchMatch timeRange.data with
    | none => 0
    | some (sh, sm, eh, em) =>
      let startTime : ℚ := (sh : ℚ) + (sm : ℚ) / 60
      let endTime : ℚ := (eh : ℚ) + (em : ℚ) / 60
      if endTime < startTime then endTime + 24 - startTime else endTime - startTime

theorem calculateHours_eq_of_searchMatch {s : String} (hne : ¬(s = "" ∨ s = "DW"))
    {sh sm eh em : Nat} (h : searchMatch s.data = some (sh, sm, eh, em)) :
    calculateHours s =
      if (eh : ℚ) + (em : ℚ) / 60 < (sh : ℚ) + (sm : ℚ) / 60 then
        (eh : ℚ) + (em : ℚ) / 60 + 24 - ((sh : ℚ) + (sm : ℚ) / 60)
      else (eh : ℚ) + (em : ℚ) / 60 - ((sh : ℚ) + (sm : ℚ) / 60) := by
  unfold calculateHours
  rw [if_neg hne, h]

theorem calculateHours_eq_zero_of_none {s : String} (hne : ¬(s = "" ∨ s = "DW"))
    (h : searchMatch s.data = none) : calculateHours s = 0 := by
  unfold calculateHours
  rw [if_neg hne, h]

theorem parseColonMMDash_cons {m1 m2 : Char} (hm1 : m1.isDigit = true)
    (hm2 : m2.isDigit = true) (rest : List Char) :
    parseColonMMDash (':' :: m1 :: m2 :: '-' :: rest) =
      some (10 * dval m1 + dval m2, rest) := by
  simp [parseColonMMDash, parseColonMM, parseMM, hm1, hm2]

theorem parseEndHM_cons {h3 h4 m3 m4 : Char} (hh3 : h3.isDigit = true)
    (hh4 : h4.isDigit = true) (hm3 : m3.isDigit = true) (hm4 : m4.isDigit = true)
    (rest : List Char) :
    parseEndHM (h3 :: h4 :: ':' :: m3 :: m4 :: rest) =
      some (10 * dval h3 + dval h4, 10 * dval m3 + dval m4) := by
  simp [parseEndHM, hh3, hh4, parseColonMM, parseMM, hm3, hm4]

theorem matchAt_timeRange {h1 h2 m1 m2 h3 h4 m3 m4 : Char}
    (hh1 : h1.isDigit = true) (hh2 : h2.isDigit = true)
    (hm1 : m1.isDigit = true) (hm2 : m2.isDigit = true)
    (hh3 : h3.isDigit = true) (hh4 : h4.isDigit = true)
    (hm3 : m3.isDigit = true) (hm4 : m4.isDigit = true) (rest : List Char) :
    matchAt (h1 :: h2 :: ':' :: m1 :: m2 :: '-' :: h3 :: h4 :: ':' :: m3 :: m4 :: rest) =
      some (10 * dval h1 + dval h2, 10 * dval m1 + dval m2,
        10 * dval h3 + dval h4, 10 * dval m3 + dval m4) := by
  simp [matchAt, hh1, hh2, parseColonMMDash_cons hm1 hm2,
    parseEndHM_cons hh3 hh4 hm3 hm4]

theorem searchMatch_eq_of_matchAt {a : Char} {l : List Char}
    {r : Nat × Nat × Nat × Nat} (h : matchAt (a :: l) = some r) :
    searchMatch (a :: l) = some r := by
  simp [searchMatch, h]

theorem searchMatch_skip_not_digit {c : Char} (hc : c.isDigit = false)
    (l : List Char) : searchMatch (c :: l) = searchMatch l := by
  simp [searchMatch, matchAt, hc]

theorem searchMatch_append_not_digit :
    ∀ (pre : List Char), (∀ c ∈ pre, c.isDigit = false) →
      ∀ l, searchMatch (pre ++ l) = searchMatch l
  | [], _, l => by simp
  | c :: t, hpre, l => by
    rw [List.cons_append, searchMatch_skip_not_digit (hpre c (List.mem_cons_self c t))]
    exact searchMatch_append_not_digit t (fun d hd => hpre d (List.mem_cons_of_mem _ hd)) l

theorem guard_false_of_len {l : List Char} (h : 11 ≤ l.length) :
    ¬((⟨l⟩ : String) = "" ∨ (⟨l⟩ : String) = "DW") := by
  intro hcon
  rcases hcon with hcon | hcon
  · have hdata : l = ("" : String).data := congrArg String.data hcon
    have hlen := congrArg List.length hdata
    rw [show ("" : String).data.length = 0 from rfl] at hlen
    omega
  · have hdata : l = ("DW" : String).data := congrArg String.data hcon
    have hlen := congrArg List.length hdata
    rw [show ("DW" : String).data.length = 2 from rfl] at hlen
    omega

/-- C5: hour computation — `"09:00-17:00"` contributes 8 hours,
`"22:00-06:00"` contributes 8 hours (the end is treated as past midnight when
earlier than the start), the day-off marker `"DW"`, the empty string and a
malformed string such as `"abc"` all contribute 0 without error; and in
general a cell of the form `HH:MM-HH:MM` contributes end minus start hours,
with 24 added when the end is earlier than the start. -/
theorem C5_calculateHours_spec :
    calculateHours "09:00-17:00" = 8 ∧
    calculateHours "22:00-06:00" = 8 ∧
    calculateHours "DW" = 0 ∧
    calculateHours "" = 0 ∧
    calculateHours "abc" = 0 ∧
    (∀ h1 h2 m1 m2 h3 h4 m3 m4 : Char,
      h1.isDigit = true → h2.isDigit = true → m1.isDigit = true → m2.isDigit = true →
      h3.isDigit = true → h4.isDigit = true → m3.isDigit = true → m4.isDigit = true →
      calculateHours ⟨[h1, h2, ':', m1, m2, '-', h3, h4, ':', m3, m4]⟩ =
        if ((10 * dval h3 + dval h4 : Nat) : ℚ) + ((10 * dval m3 + dval m4 : Nat) : ℚ) / 60 <
            ((10 * dval h1 + dval h2 : Nat) : ℚ) + ((10 * dval m1 + dval m2 : Nat) : ℚ) / 60 then
          ((10 * dval h3 + dval h4 : Nat) : ℚ) + ((10 * dval m3 + dval m4 : Nat) : ℚ) / 60 + 24 -
            (((10 * dval h1 + dval h2 : Nat) : ℚ) + ((10 * dval m1 + dval m2 : Nat) : ℚ) / 60)
        else
          ((10 * dval h3 + dval h4 : Nat) : ℚ) + ((10 * dval m3 + dval m4 : Nat) : ℚ) / 60 -
            (((10 * dval h1 + dval h2 : Nat) : ℚ) + ((10 * dval m1 + dval m2 : Nat) : ℚ) / 60)) := by
  refine ⟨?_, ?_, ?_, ?_, ?_, ?_⟩
  · rw [calculateHours_eq_of_searchMatch (by decide)
      (show searchMatch "09:00-17:00".data = some (9, 0, 17, 0) by decide)]
    norm_num
  · rw [calculateHours_eq_of_searchMatch (by decide)
      (show searchMatch "22:00-06:00".data = some (22, 0, 6, 0) by decide)]
    norm_num
  · simp [calculateHours]
  · simp [calculateHours]
  · exact calculateHours_eq_zero_of_none (by decide) (by decide)
  · intro h1 h2 m1 m2 h3 h4 m3 m4 d1 d2 d3 d4 d5 d6 d7 d8
    have hne := guard_false_of_len
      (l := [h1, h2, ':', m1, m2, '-', h3, h4, ':', m3, m4]) (by simp)
    have hsm : searchMatch ([h1, h2, ':', m1, m2, '-', h3, h4, ':', m3, m4] : List Char) =
        some (10 * dval h1 + dval h2, 10 * dval m1 + dval m2,
          10 * dval h3 + dval h4, 10 * dval m3 + dval m4) :=
      searchMatch_eq_of_matchAt (matchAt_timeRange d1 d2 d3 d4 d5 d6 d7 d8 [])
    rw [calculateHours_eq_of_searchMatch hne hsm]

/-- Witness for C5's general clause at the cell `08:30-16:00`, which
contributes 7.5 hours. -/
theorem C5_calculateHours_spec_witness :
    (('0' : Char).isDigit = true ∧ ('8' : Char).isDigit = true ∧
      ('3' : Char).isDigit = true ∧ ('1' : Char).isDigit = true ∧
      ('6' : Char).isDigit = true) ∧
    calculateHours ⟨['0', '8', ':', '3', '0', '-', '1', '6', ':', '0', '0']⟩ = 15 / 2 := by
  refine ⟨⟨by decide, by decide, by decide, by decide, by decide⟩, ?_⟩
  have h := C5_calculateHours_spec.2.2.2.2.2 '0' '8' '3' '0' '1' '6' '0' '0'
    (by decide) (by decide) (by decide) (by decide) (by decide) (by decide)
    (by decide) (by decide)
  rw [h]
  simp only [show dval '0' = 0 from by decide, show dval '8' = 8 from by decide,
    show dval '3' = 3 from by decide, show dval '1' = 1 from by decide,
    show dval '6' = 6 from by decide]
  norm_num

/-- C10: the hour computation does not require the whole cell to be a time
range — the pattern matches anywhere inside the string (the first such
substring wins), and hour fields are not validated to be below 24:
`"x09:00-17:00y"` contributes 8 hours and `"25:00-26:00"` contributes 1 hour;
in general any cell made of a digit-free prefix, a time-range substring and an
arbitrary suffix contributes the hours of that substring. -/
theorem C10_calculateHours_substring :
    calculateHours "x09:00-17:00y" = 8 ∧
    calculateHours "25:00-26:00" = 1 ∧
    (∀ (pre rest : List Char) (h1 h2 m1 m2 h3 h4 m3 m4 : Char),
      (∀ c ∈ pre, c.isDigit = false) →
      h1.isDigit = true → h2.isDigit = true → m1.isDigit = true → m2.isDigit = true →
      h3.isDigit = true → h4.isDigit = true → m3.isDigit = true → m4.isDigit = true →
      calculateHours
        ⟨pre ++ (h1 :: h2 :: ':' :: m1 :: m2 :: '-' :: h3 :: h4 :: ':' :: m3 :: m4 :: rest)⟩ =
        if ((10 * dval h3 + dval h4 : Nat) : ℚ) + ((10 * dval m3 + dval m4 : Nat) : ℚ) / 60 <
            ((10 * dval h1 + dval h2 : Nat) : ℚ) + ((10 * dval m1 + dval m2 : Nat) : ℚ) / 60 then
          ((10 * dval h3 + dval h4 : Nat) : ℚ) + ((10 * dval m3 + dval m4 : Nat) : ℚ) / 60 + 24 -
            (((10 * dval h1 + dval h2 : Nat) : ℚ) + ((10 * dval m1 + dval m2 : Nat) : ℚ) / 60)
        else
          ((10 * dval h3 + dval h4 : Nat) : ℚ) + ((10 * dval m3 + dval m4 : Nat) : ℚ) / 60 -
            (((10 * dval h1 + dval h2 : Nat) : ℚ) + ((10 * dval m1 + dval m2 : Nat) : ℚ) / 60)) := by
  refine ⟨?_, ?_, ?_⟩
  · rw [calculateHours_eq_of_searchMatch (by decide)
      (show searchMatch "x09:00-17:00y".data = some (9, 0, 17, 0) by decide)]
    norm_num
  · rw [calculateHours_eq_of_searchMatch (by decide)
      (show searchMatch "25:00-26:00".data = some (25, 0, 26, 0) by decide)]
    norm_num
  · intro pre rest h1 h2 m1 m2 h3 h4 m3 m4 hpre d1 d2 d3 d4 d5 d6 d7 d8
    have hlen : 11 ≤
        (pre ++ (h1 :: h2 :: ':' :: m1 :: m2 :: '-' :: h3 :: h4 :: ':' :: m3 :: m4 :: rest)).length := by
      simp
      omega
    have hne := guard_false_of_len hlen
    have hsm : searchMatch
        (pre ++ (h1 :: h2 :: ':' :: m1 :: m2 :: '-' :: h3 :: h4 :: ':' :: m3 :: m4 :: rest)) =
        some (10 * dval h1 + dval h2, 10 * dval m1 + dval m2,
          10 * dval h3 + dval h4, 10 * dval m3 + dval m4) := by
      rw [searchMatch_append_not_digit pre hpre]
      exact searchMatch_eq_of_matchAt (matchAt_timeRange d1 d2 d3 d4 d5 d6 d7 d8 rest)
    rw [calculateHours_eq_of_searchMatch hne hsm]

/-- Witness for C10's general clause at the cell `z07:15-13:45!`, which
contributes 6.5 hours. -/
theorem C10_calculateHours_substring_witness :
    (∀ c ∈ ['z'], c.isDigit = false) ∧
    calculateHours
      ⟨['z'] ++ ('0' :: '7' :: ':' :: '1' :: '5' :: '-' :: '1' :: '3' :: ':' :: '4' :: '5' :: ['!'])⟩ =
      13 / 2 := by
  refine ⟨by decide, ?_⟩
  have h := C10_calculateHours_substring.2.2 ['z'] ['!'] '0' '7' '1' '5' '1' '3' '4' '5'
    (by decide) (by decide) (by decide) (by decide) (by decide) (by decide) (by decide)
    (by decide) (by decide)
  rw [h]
  simp only [show dval '0' = 0 from by decide, show dval '7' = 7 from by decide,
    show dval '1' = 1 from by decide, show dval '5' = 5 from by decide,
    show dval '3' = 3 from by decide, show dval '4' = 4 from by decide]
  norm_num

/-! Startup persistence load (C6). -/

/-- Startup load of the persisted employer-shops document (`loadShopsData`,
main.go 156-176).  `file = none` models a missing file (`os.IsNotExist`
branch, empty registry); a zero-length file is treated like a missing one;
otherwise JSON decoding is modelled by the `parse` parameter and a decode
failure is returned as an error. -/
def loadShopsData (parse : String → Option (List (String × List (String × Shop))))
    (file : Option String) : Except String (List (String × List (String × Shop))) :=
  match file with
  | none => .ok []
  | some content =>
    if content.length = 0 then .ok []
    else
      match parse content with
      | some d => .ok d
      | none => .error "failed to unmarshal shops data"

/-- Startup behaviour around `loadShopsData` (`init`, main.go 364-370): the
load error is only logged with `log.Printf` and startup continues with the
registry still empty; the Bool records that the server goes on to start
(there is no `log.Fatal` on this path). -/
def initLoadShops (parse : String → Option (List (String × List (String × Shop))))
    (file : Option String) : Bool × List (String × List (String × Shop)) :=
  match loadShopsData parse file with
  | .ok d => (true, d)
  | .error _ => (true, [])

/-! External document store and the spreadsheet-view handler (C7, C8). -/

/-- External spreadsheet document: id, title, and tab titles. -/
structure ExtDoc where
  id : String
  title : String
  sheetTitles : List String
  deriving DecidableEq

/-- The external document store surface the backend uses. -/
abbrev ExtStore := List ExtDoc

/-- `GetSpreadsheetById` (main.go 634-643): the store rejects an unknown id
(`none` models the lookup error for a stale/deleted document). -/
def GetSpreadsheetById (store : ExtStore) (sid : String) : Option ExtDoc :=
  store.find? (fun d => d.id == sid)

/-- `findSpreadsheetByNameUnsafe` (main.go 585-604): first document whose
name matches the query exactly. -/
def findSpreadsheetByName (store : ExtStore) (fileName : String) : Option ExtDoc :=
  store.find? (fun d => d.title == fileName)

/-- The twelve month tabs in fixed calendar order (main.go 533-544). -/
def monthTabs : List String :=
  ["STYCZEŃ", "LUTY", "MARZEC", "KWIECIEŃ", "MAJ", "CZERWIEC",
   "LIPIEC", "SIERPIEŃ", "WRZESIEŃ", "PAŹDZIERNIK", "LISTOPAD", "GRUDZIEŃ"]

/-- The deterministic document name `GrafikZabka-<shopName>-<year>`
(main.go 507). -/
def spreadsheetFileName (shopName : String) (year : Nat) : String :=
  "GrafikZabka-" ++ shopName ++ "-" ++ toString year

/-- Record a document id into the shop's per-year document index
(main.go 515-524 found branch; 560-570 created branch, which also bumps
`updatedAt`, passed here as `touch`).  When the employer entry is absent the
Go code would panic assigning into a nil map; the handlers resolve the shop
from this map first, so the entry exists on every reachable call and the
model leaves the state unchanged there.  An absent shop key reads as the zero
`Shop`, exactly as `employerShops[emp][sid]` does. -/
def recordSpreadsheet (s : RegState) (emp sid : String) (year : Nat) (docId : String)
    (touch : Option Nat) : RegState :=
  if (mapGet s.employerShops emp).isSome then
    writeShopMap s emp sid
      { (getShop s emp sid).getD ⟨"", "", [], [], 0, 0⟩ with
        spreadsheets :=
          mapSet ((getShop s emp sid).getD ⟨"", "", [], [], 0, 0⟩).spreadsheets year docId,
        updatedAt := touch.getD ((getShop s emp sid).getD ⟨"", "", [], [], 0, 0⟩).updatedAt }
  else s

/-- `CreateWorkScheduleSpreadsheet` (main.go 502-582): look the document up
by its deterministic name first; if found, record its id (no `updatedAt`
bump) and return it; otherwise create a document with thirteen tabs (the
management tab followed by the twelve month tabs), record its id, bump
`updatedAt`, and return it.  `freshId` models the id the external store
assigns to the new document; the Bool is true exactly on the creation
branch. -/
def CreateWorkScheduleSpreadsheet (s : RegState) (store : ExtStore)
    (shopName emp sid : String) (year : Nat) (freshId : String) (now : Nat) :
    ExtDoc × RegState × ExtStore × Bool :=
  match findSpreadsheetByName store (spreadsheetFileName shopName year) with
  | some doc => (doc, recordSpreadsheet s emp sid year doc.id none, store, false)
  | none =>
    (⟨freshId, spreadsheetFileName shopName year, "MANAGEMENT" :: monthTabs⟩,
      recordSpreadsheet s emp sid year freshId (some now),
      store ++ [⟨freshId, spreadsheetFileName shopName year, "MANAGEMENT" :: monthTabs⟩],
      true)

/-- Employee shop resolution shared by the read handlers (main.go 1276-1297
and 1697-1716): the first employer owning a shop under this id whose roster
contains the session identity. -/
def findShopForEmployee (s : RegState) (email shopID : String) : Option (String × Shop) :=
  s.employerShops.findSome? (fun p =>
    match mapGet p.2 shopID with
    | some shopData =>
      if (mapGet shopData.employees email).isSome then some (p.1, shopData) else none
    | none => none)

/-- Outcome of POST /api/spreadsheet: HTTP status, returned document id and
`created` flag, resulting registry and external store. -/
structure SpreadsheetOutcome where
  status : Nat
  docId : Option String
  created : Bool
  reg : RegState
  store : ExtStore
  deriving DecidableEq

/-- Outcome assembled from a `CreateWorkScheduleSpreadsheet` result: the
handler sets `created = true` whenever that call ran (main.go 1339-1345),
regardless of whether the document was found or newly created. -/
def spreadsheetOutcomeOfCreate (r : ExtDoc × RegState × ExtStore × Bool) :
    SpreadsheetOutcome :=
  ⟨200, some r.1.id, true, r.2.1, r.2.2.1⟩

/-- Find-or-create leg of the spreadsheet handler (main.go 1331-1367): only
an employer session reaches `CreateWorkScheduleSpreadsheet`; an employee gets
404 ("Spreadsheet not found for this year"). -/
def handleSpreadsheetCreate (s : RegState) (store : ExtStore)
    (shopName empOwner shopID : String) (year : Nat) (freshId : String) (now : Nat)
    (isEmp : Bool) : SpreadsheetOutcome :=
  if isEmp then
    spreadsheetOutcomeOfCreate
      (CreateWorkScheduleSpreadsheet s store shopName empOwner shopID year freshId now)
  else ⟨404, none, false, s, store⟩

/-- Cached-id leg of the spreadsheet handler (main.go 1314-1329): a valid
cached id is returned with `created = false`; a stale id (rejected by the
store) is evicted from the shop's document index, the eviction is written
back, and control falls through to the find-or-create leg. -/
def handleSpreadsheetCached (s : RegState) (store : ExtStore)
    (empOwner shopID : String) (year : Nat) (freshId : String) (now : Nat)
    (shop : Shop) (isEmp : Bool) (cachedId : String) : SpreadsheetOutcome :=
  match GetSpreadsheetById store cachedId with
  | some doc => ⟨200, some doc.id, false, s, store⟩
  | none =>
    handleSpreadsheetCreate
      (writeShopMap s empOwner shopID
        { shop with spreadsheets := mapDel shop.spreadsheets year })
      store shop.name empOwner shopID year freshId now isEmp

/-- Document part of `handleSpreadsheet` once the shop is resolved. -/
def handleSpreadsheetDoc (s : RegState) (store : ExtStore) (empOwner shopID : String)
    (year : Nat) (freshId : String) (now : Nat) (shop : Shop) (isEmp : Bool) :
    SpreadsheetOutcome :=
  match mapGet shop.spreadsheets year with
  | some cachedId =>
    handleSpreadsheetCached s store empOwner shopID year freshId now shop isEmp cachedId
  | none => handleSpreadsheetCreate s store shop.name empOwner shopID year freshId now isEmp

/-- POST /api/spreadsheet (`handleSpreadsheet`, main.go 1212-1401), reduced
to its inputs: role and identity from the session, shop id and year from the
query.  An employer session resolves its own shop (404 when absent or with a
zero id); an employee session requires actual roster membership (403
otherwise); any other role gets 403. -/
def handleSpreadsheet (s : RegState) (store : ExtStore) (role email shopID : String)
    (year : Nat) (freshId : String) (now : Nat) : SpreadsheetOutcome :=
  if shopID = "" then ⟨400, none, false, s, store⟩
  else if role = "employer" then
    match getShop s email shopID with
    | none => ⟨404, none, false, s, store⟩
    | some shop =>
      if shop.id = "" then ⟨404, none, false, s, store⟩
      else handleSpreadsheetDoc s store email shopID year freshId now shop true
  else if role = "employee" then
    match findShopForEmployee s email shopID with
    | none => ⟨403, none, false, s, store⟩
    | some q => handleSpreadsheetDoc s store q.1 shopID year freshId now q.2 false
  else ⟨403, none, false, s, store⟩

/-! GET /api/schedule (C9). -/

/-- Outcome of GET /api/schedule: HTTP status and the (unchanged) registry. -/
structure ScheduleOutcome where
  status : Nat
  reg : RegState
  deriving DecidableEq

/-- Spreadsheet resolution of the schedule read (main.go 1719-1728): 404 when
the shop has no document for the year; the external range read is modelled as
succeeding (its payload does not matter to the claims). -/
def scheduleRead (s : RegState) (shop : Shop) (year : Nat) : ScheduleOutcome :=
  match mapGet shop.spreadsheets year with
  | none => ⟨404, s⟩
  | some _ => ⟨200, s⟩

/-- GET /api/schedule (`handleScheduleData`, main.go 1641-1749), reduced to
its inputs.  An employer session is checked for ownership only (never for
roster membership); every non-employer session must appear in the roster of
the shop with the requested id, else 403.  No branch writes the registry. -/
def handleScheduleData (s : RegState) (role email month shopID : String)
    (year : Nat) : ScheduleOutcome :=
  if month = "" ∨ shopID = "" then ⟨400, s⟩
  else if role = "employer" then
    match getShop s email shopID with
    | none => ⟨404, s⟩
    | some shop => if shop.id = "" then ⟨404, s⟩ else scheduleRead s shop year
  else
    match findShopForEmployee s email shopID with
    | none => ⟨403, s⟩
    | some q => scheduleRead s q.2 year

/-- Decidable statement that `email` appears in no roster of any shop stored
under key `shopID` (regardless of what the reverse index says). -/
def rosterFree (s : RegState) (shopID email : String) : Bool :=
  s.employerShops.all (fun p =>
    match mapGet p.2 shopID with
    | some shop => (mapGet shop.employees email).isNone
    | none => true)

/-- Witness for the amended C4 at `sampleState` with timestamps 3 and 7. -/
theorem C4_remove_idempotent_up_to_updatedAt_witness :
    ("s1" ≠ "" ∧ "al@x" ≠ "" ∧ shopKeyExists sampleState "boss@x" "s1" = true ∧
      (revList sampleState "al@x").Nodup) ∧
    removeEmployeeStep (removeEmployeeStep sampleState "boss@x" "s1" "al@x" 3)
        "boss@x" "s1" "al@x" 7 =
      setShopUpdatedAt (removeEmployeeStep sampleState "boss@x" "s1" "al@x" 3)
        "boss@x" "s1" 7 :=
  ⟨⟨by decide, by decide, by decide, by decide⟩,
    C4_remove_idempotent_up_to_updatedAt sampleState "boss@x" "s1" "al@x" 3 7
      (by decide) (by decide) (by decide) (by decide)⟩

/-! Equation lemmas for the spreadsheet handler legs. -/

theorem handleSpreadsheet_employer_eq (s : RegState) (store : ExtStore)
    (email shopID : String) (year : Nat) (freshId : String) (now : Nat) (shop : Shop)
    (hsid : shopID ≠ "") (hshop : getShop s email shopID = some shop)
    (hid : shop.id ≠ "") :
    handleSpreadsheet s store "employer" email shopID year freshId now =
      handleSpreadsheetDoc s store email shopID year freshId now shop true := by
  unfold handleSpreadsheet
  rw [if_neg hsid, if_pos rfl, hshop]
  exact if_neg hid

theorem handleSpreadsheetDoc_cached_eq (s : RegState) (store : ExtStore)
    (empOwner shopID : String) (year : Nat) (freshId : String) (now : Nat)
    (shop : Shop) (isEmp : Bool) (cachedId : String)
    (hcache : mapGet shop.spreadsheets year = some cachedId) :
    handleSpreadsheetDoc s store empOwner shopID year freshId now shop isEmp =
      handleSpreadsheetCached s store empOwner shopID year freshId now shop isEmp cachedId := by
  unfold handleSpreadsheetDoc
  rw [hcache]

theorem handleSpreadsheetDoc_nocache_eq (s : RegState) (store : ExtStore)
    (empOwner shopID : String) (year : Nat) (freshId : String) (now : Nat)
    (shop : Shop) (isEmp : Bool) (hnc : mapGet shop.spreadsheets year = none) :
    handleSpreadsheetDoc s store empOwner shopID year freshId now shop isEmp =
      handleSpreadsheetCreate s store shop.name empOwner shopID year freshId now isEmp := by
  unfold handleSpreadsheetDoc
  rw [hnc]

theorem handleSpreadsheetCached_stale_eq (s : RegState) (store : ExtStore)
    (empOwner shopID : String) (year : Nat) (freshId : String) (now : Nat)
    (shop : Shop) (isEmp : Bool) (cachedId : String)
    (hstale : GetSpreadsheetById store cachedId = none) :
    handleSpreadsheetCached s store empOwner shopID year freshId now shop isEmp cachedId =
      handleSpreadsheetCreate
        (writeShopMap s empOwner shopID
          { shop with spreadsheets := mapDel shop.spreadsheets year })
        store shop.name empOwner shopID year freshId now isEmp := by
  unfold handleSpreadsheetCached
  rw [hstale]

theorem handleSpreadsheetCached_valid_eq (s : RegState) (store : ExtStore)
    (empOwner shopID : String) (year : Nat) (freshId : String) (now : Nat)
    (shop : Shop) (isEmp : Bool) (cachedId : String) (doc : ExtDoc)
    (hvalid : GetSpreadsheetById store cachedId = some doc) :
    handleSpreadsheetCached s store empOwner shopID year freshId now shop isEmp cachedId =
      ⟨200, some doc.id, false, s, store⟩ := by
  unfold handleSpreadsheetCached
  rw [hvalid]

theorem handleSpreadsheetCreate_emp_eq (s : RegState) (store : ExtStore)
    (shopName empOwner shopID : String) (year : Nat) (freshId : String) (now : Nat) :
    handleSpreadsheetCreate s store shopName empOwner shopID year freshId now true =
      spreadsheetOutcomeOfCreate
        (CreateWorkScheduleSpreadsheet s store shopName empOwner shopID year freshId now) := rfl

theorem outer_isSome_of_getShop {s : RegState} {emp sid : String} {shop : Shop}
    (h : getShop s emp sid = some shop) : (mapGet s.employerShops emp).isSome = true := by
  unfold getShop at h
  rcases houter : mapGet s.employerShops emp with _ | shops
  · rw [houter] at h
    simp at h
  · simp

theorem getShop_writeShopMap_self (s : RegState) (emp sid : String) (sh : Shop) :
    getShop (writeShopMap s emp sid sh) emp sid = some sh := by
  rw [getShop_writeShopMap]
  simp

theorem recordSpreadsheet_eq (s : RegState) (emp sid : String) (shop : Shop)
    (h : getShop s emp sid = some shop) (year : Nat) (docId : String) (touch : Option Nat) :
    recordSpreadsheet s emp sid year docId touch =
      writeShopMap s emp sid
        { shop with spreadsheets := mapSet shop.spreadsheets year docId,
                    updatedAt := touch.getD shop.updatedAt } := by
  unfold recordSpreadsheet
  rw [if_pos (outer_isSome_of_getShop h), h]
  rfl

theorem CreateWorkScheduleSpreadsheet_found (s : RegState) (store : ExtStore)
    (shopName emp sid : String) (year : Nat) (freshId : String) (now : Nat) (doc : ExtDoc)
    (hfind : findSpreadsheetByName store (spreadsheetFileName shopName year) = some doc) :
    CreateWorkScheduleSpreadsheet s store shopName emp sid year freshId now =
      (doc, recordSpreadsheet s emp sid year doc.id none, store, false) := by
  unfold CreateWorkScheduleSpreadsheet
  rw [hfind]

theorem CreateWorkScheduleSpreadsheet_notfound (s : RegState) (store : ExtStore)
    (shopName emp sid : String) (year : Nat) (freshId : String) (now : Nat)
    (hfind : findSpreadsheetByName store (spreadsheetFileName shopName year) = none) :
    CreateWorkScheduleSpreadsheet s store shopName emp sid year freshId now =
      (⟨freshId, spreadsheetFileName shopName year, "MANAGEMENT" :: monthTabs⟩,
        recordSpreadsheet s emp sid year freshId (some now),
        store ++ [⟨freshId, spreadsheetFileName shopName year, "MANAGEMENT" :: monthTabs⟩],
        true) := by
  unfold CreateWorkScheduleSpreadsheet
  rw [hfind]

/-- C7 (amended): for an employer session whose shop's document index holds a
stale id the external store rejects, the spreadsheet request evicts the id,
performs one find-or-create, records the resulting id for the year and
returns it with `created = true`; an employee session with the same stale id
still evicts it but receives 404 without any find-or-create (see the
counterexample). -/
theorem C7_stale_id_recovery (s : RegState) (store : ExtStore) (email shopID : String)
    (year : Nat) (freshId : String) (now : Nat) (shop : Shop) (staleId : String)
    (hsid : shopID ≠ "") (hshop : getShop s email shopID = some shop) (hid : shop.id ≠ "")
    (hcache : mapGet shop.spreadsheets year = some staleId)
    (hstale : GetSpreadsheetById store staleId = none) :
    (handleSpreadsheet s store "employer" email shopID year freshId now).status = 200 ∧
    (handleSpreadsheet s store "employer" email shopID year freshId now).created = true ∧
    ∃ newId,
      (handleSpreadsheet s store "employer" email shopID year freshId now).docId = some newId ∧
      (∃ shop', getShop (handleSpreadsheet s store "employer" email shopID year
          freshId now).reg email shopID = some shop' ∧
        mapGet shop'.spreadsheets year = some newId) ∧
      (findSpreadsheetByName store (spreadsheetFileName shop.name year) = none →
        newId = freshId) ∧
      (∀ doc, findSpreadsheetByName store (spreadsheetFileName shop.name year) = some doc →
        newId = doc.id) := by
  have heq1 : handleSpreadsheet s store "employer" email shopID year freshId now =
      handleSpreadsheetCreate
        (writeShopMap s email shopID
          { shop with spreadsheets := mapDel shop.spreadsheets year })
        store shop.name email shopID year freshId now true := by
    rw [handleSpreadsheet_employer_eq s store email shopID year freshId now shop hsid hshop hid,
      handleSpreadsheetDoc_cached_eq s store email shopID year freshId now shop true staleId hcache,
      handleSpreadsheetCached_stale_eq s store email shopID year freshId now shop true staleId hstale]
  have hs1 : getShop
      (writeShopMap s email shopID { shop with spreadsheets := mapDel shop.spreadsheets year })
      email shopID = some { shop with spreadsheets := mapDel shop.spreadsheets year } := by
    rw [getShop_writeShopMap]
    simp
  rw [heq1, handleSpreadsheetCreate_emp_eq]
  cases hfind : findSpreadsheetByName store (spreadsheetFileName shop.name year) with
  | some doc =>
    rw [CreateWorkScheduleSpreadsheet_found _ store shop.name email shopID year freshId now
      doc hfind]
    refine ⟨rfl, rfl, doc.id, rfl, ?_, ?_, ?_⟩
    · rw [show (spreadsheetOutcomeOfCreate
          (doc, recordSpreadsheet
            (writeShopMap s email shopID
              { shop with spreadsheets := mapDel shop.spreadsheets year })
            email shopID year doc.id none, store, false)).reg =
          recordSpreadsheet
            (writeShopMap s email shopID
              { shop with spreadsheets := mapDel shop.spreadsheets year })
            email shopID year doc.id none from rfl]
      rw [recordSpreadsheet_eq _ email shopID _ hs1 year doc.id none]
      exact ⟨_, getShop_writeShopMap_self _ _ _ _, mapGet_mapSet_eq _ _ _⟩
    · intro hnone
      cases hnone
    · intro doc' hdoc'
      rw [Option.some_inj.mp hdoc']
  | none =>
    rw [CreateWorkScheduleSpreadsheet_notfound _ store shop.name email shopID year freshId now
      hfind]
    refine ⟨rfl, rfl, freshId, rfl, ?_, ?_, ?_⟩
    · rw [show (spreadsheetOutcomeOfCreate
          (⟨freshId, spreadsheetFileName shop.name year, "MANAGEMENT" :: monthTabs⟩,
            recordSpreadsheet
              (writeShopMap s email shopID
                { shop with spreadsheets := mapDel shop.spreadsheets year })
              email shopID year freshId (some now),
            store ++ [⟨freshId, spreadsheetFileName shop.name year,
              "MANAGEMENT" :: monthTabs⟩], true)).reg =
          recordSpreadsheet
            (writeShopMap s email shopID
              { shop with spreadsheets := mapDel shop.spreadsheets year })
            email shopID year freshId (some now) from rfl]
      rw [recordSpreadsheet_eq _ email shopID _ hs1 year freshId (some now)]
      exact ⟨_, getShop_writeShopMap_self _ _ _ _, mapGet_mapSet_eq _ _ _⟩
    · intro _
      rfl
    · intro doc' hdoc'
      cases hdoc'

/-- Shop and registry used by the C7 counterexample: an employee in the
roster of a shop whose document index holds a stale id. -/
def c7Shop : Shop := ⟨"s1", "Sklep", [("bob@x", ⟨"bob@x", "Bob", 20⟩)], [(2025, "stale")], 0, 0⟩

/-- Registry for the C7 counterexample. -/
def c7State : RegState := ⟨[("boss@x", [("s1", c7Shop)])], [("bob@x", ["s1"])]⟩

/-- C7 counterexample: an employee session hitting the same stale cached id
(the external store is empty, so the id is rejected) receives 404 with no
document and `created = false` — no find-or-create is attempted, refuting the
claim for non-employer requests. -/
theorem C7_counterexample :
    (handleSpreadsheet c7State [] "employee" "bob@x" "s1" 2025 "newid" 9).status = 404 ∧
    (handleSpreadsheet c7State [] "employee" "bob@x" "s1" 2025 "newid" 9).created = false ∧
    (handleSpreadsheet c7State [] "employee" "bob@x" "s1" 2025 "newid" 9).docId = none := by
  decide

/-- Witness for the amended C7: employer session, stale cached id, empty
store — the replacement is created under the fresh id and recorded. -/
theorem C7_stale_id_recovery_witness :
    ("s1" ≠ "" ∧ getShop c7State "boss@x" "s1" = some c7Shop ∧ c7Shop.id ≠ "" ∧
      mapGet c7Shop.spreadsheets 2025 = some "stale" ∧
      GetSpreadsheetById [] "stale" = none) ∧
    (handleSpreadsheet c7State [] "employer" "boss@x" "s1" 2025 "newid" 9).status = 200 ∧
    (handleSpreadsheet c7State [] "employer" "boss@x" "s1" 2025 "newid" 9).created = true :=
  ⟨⟨by decide, by decide, by decide, by decide, by decide⟩,
    (C7_stale_id_recovery c7State [] "boss@x" "s1" 2025 "newid" 9 c7Shop "stale"
      (by decide) (by decide) (by decide) (by decide) (by decide)).1,
    (C7_stale_id_recovery c7State [] "boss@x" "s1" 2025 "newid" 9 c7Shop "stale"
      (by decide) (by decide) (by decide) (by decide) (by decide)).2.1⟩


/-- C8 (amended): `CreateWorkScheduleSpreadsheet` derives the deterministic
document name `GrafikZabka-<shopName>-<year>`; when a document of that name
already exists it records the found id into the shop's document index and
returns it, but the handler reports `created = true` whenever the
find-or-create path ran (found or newly created) — not `created = false` as
the claim states; `created = false` is reported only when a valid cached id
short-circuited the request; a genuinely new document carries thirteen tabs
(the management tab plus the twelve month tabs). -/
theorem C8_find_or_create_reports (s : RegState) (store : ExtStore)
    (email shopID : String) (year : Nat) (freshId : String) (now : Nat) (shop : Shop)
    (hsid : shopID ≠ "") (hshop : getShop s email shopID = some shop)
    (hid : shop.id ≠ "") :
    (∀ doc, mapGet shop.spreadsheets year = none →
      findSpreadsheetByName store (spreadsheetFileName shop.name year) = some doc →
      (handleSpreadsheet s store "employer" email shopID year freshId now).created = true ∧
      (handleSpreadsheet s store "employer" email shopID year freshId now).docId =
        some doc.id ∧
      (handleSpreadsheet s store "employer" email shopID year freshId now).store = store ∧
      ∃ shop', getShop (handleSpreadsheet s store "employer" email shopID year
          freshId now).reg email shopID = some shop' ∧
        mapGet shop'.spreadsheets year = some doc.id) ∧
    (mapGet shop.spreadsheets year = none →
      findSpreadsheetByName store (spreadsheetFileName shop.name year) = none →
      (handleSpreadsheet s store "employer" email shopID year freshId now).created = true ∧
      (handleSpreadsheet s store "employer" email shopID year freshId now).docId =
        some freshId ∧
      (handleSpreadsheet s store "employer" email shopID year freshId now).store =
        store ++ [⟨freshId, spreadsheetFileName shop.name year, "MANAGEMENT" :: monthTabs⟩] ∧
      ("MANAGEMENT" :: monthTabs).length = 13 ∧
      ∃ shop', getShop (handleSpreadsheet s store "employer" email shopID year
          freshId now).reg email shopID = some shop' ∧
        mapGet shop'.spreadsheets year = some freshId) ∧
    (∀ cachedId doc, mapGet shop.spreadsheets year = some cachedId →
      GetSpreadsheetById store cachedId = some doc →
      (handleSpreadsheet s store "employer" email shopID year freshId now).created = false ∧
      (handleSpreadsheet s store "employer" email shopID year freshId now).status = 200) := by
  refine ⟨?_, ?_, ?_⟩
  · intro doc hnc hfind
    have heq : handleSpreadsheet s store "employer" email shopID year freshId now =
        spreadsheetOutcomeOfCreate
          (doc, recordSpreadsheet s email shopID year doc.id none, store, false) := by
      rw [handleSpreadsheet_employer_eq s store email shopID year freshId now shop hsid
          hshop hid,
        handleSpreadsheetDoc_nocache_eq s store email shopID year freshId now shop true hnc,
        handleSpreadsheetCreate_emp_eq,
        CreateWorkScheduleSpreadsheet_found s store shop.name email shopID year freshId now
          doc hfind]
    rw [heq]
    refine ⟨rfl, rfl, rfl, ?_⟩
    rw [show (spreadsheetOutcomeOfCreate
        (doc, recordSpreadsheet s email shopID year doc.id none, store, false)).reg =
        recordSpreadsheet s email shopID year doc.id none from rfl]
    rw [recordSpreadsheet_eq s email shopID shop hshop year doc.id none]
    exact ⟨_, getShop_writeShopMap_self _ _ _ _, mapGet_mapSet_eq _ _ _⟩
  · intro hnc hfind
    have heq : handleSpreadsheet s store "employer" email shopID year freshId now =
        spreadsheetOutcomeOfCreate
          (⟨freshId, spreadsheetFileName shop.name year, "MANAGEMENT" :: monthTabs⟩,
            recordSpreadsheet s email shopID year freshId (some now),
            store ++ [⟨freshId, spreadsheetFileName shop.name year,
              "MANAGEMENT" :: monthTabs⟩], true) := by
      rw [handleSpreadsheet_employer_eq s store email shopID year freshId now shop hsid
          hshop hid,
        handleSpreadsheetDoc_nocache_eq s store email shopID year freshId now shop true hnc,
        handleSpreadsheetCreate_emp_eq,
        CreateWorkScheduleSpreadsheet_notfound s store shop.name email shopID year freshId
          now hfind]
    rw [heq]
    refine ⟨rfl, rfl, rfl, rfl, ?_⟩
    rw [show (spreadsheetOutcomeOfCreate
        (⟨freshId, spreadsheetFileName shop.name year, "MANAGEMENT" :: monthTabs⟩,
          recordSpreadsheet s email shopID year freshId (some now),
          store ++ [⟨freshId, spreadsheetFileName shop.name year,
            "MANAGEMENT" :: monthTabs⟩], true)).reg =
        recordSpreadsheet s email shopID year freshId (some now) from rfl]
    rw [recordSpreadsheet_eq s email shopID shop hshop year freshId (some now)]
    exact ⟨_, getShop_writeShopMap_self _ _ _ _, mapGet_mapSet_eq _ _ _⟩
  · intro cachedId doc hcache hvalid
    have heq : handleSpreadsheet s store "employer" email shopID year freshId now =
        ⟨200, some doc.id, false, s, store⟩ := by
      rw [handleSpreadsheet_employer_eq s store email shopID year freshId now shop hsid
          hshop hid,
        handleSpreadsheetDoc_cached_eq s store email shopID year freshId now shop true
          cachedId hcache,
        handleSpreadsheetCached_valid_eq s store email shopID year freshId now shop true
          cachedId doc hvalid]
    rw [heq]
    exact ⟨rfl, rfl⟩

/-- Shop for the C8 counterexample and witness: no cached document id. -/
def c8Shop : Shop := ⟨"s1", "Sklep", [], [], 0, 0⟩

/-- Registry for the C8 counterexample and witness. -/
def c8State : RegState := ⟨[("boss@x", [("s1", c8Shop)])], []⟩

/-- A document already stored in the external store under the deterministic
name for shop `Sklep` and year 2025. -/
def c8Doc : ExtDoc := ⟨"d7", spreadsheetFileName "Sklep" 2025, ["MANAGEMENT"]⟩

/-- C8 counterexample: the document of the derived name already exists in the
store, yet the response reports `created = true` (the claim states
`created = false` for this case). -/
theorem C8_counterexample :
    findSpreadsheetByName [c8Doc] (spreadsheetFileName "Sklep" 2025) = some c8Doc ∧
    (handleSpreadsheet c8State [c8Doc] "employer" "boss@x" "s1" 2025 "fresh" 9).created =
      true := by
  decide

/-- Witness for the amended C8 in the found-by-name case at the concrete
store holding `c8Doc`. -/
theorem C8_find_or_create_reports_witness :
    ("s1" ≠ "" ∧ getShop c8State "boss@x" "s1" = some c8Shop ∧ c8Shop.id ≠ "" ∧
      mapGet c8Shop.spreadsheets 2025 = none ∧
      findSpreadsheetByName [c8Doc] (spreadsheetFileName c8Shop.name 2025) = some c8Doc) ∧
    (handleSpreadsheet c8State [c8Doc] "employer" "boss@x" "s1" 2025 "fresh" 9).created =
      true ∧
    (handleSpreadsheet c8State [c8Doc] "employer" "boss@x" "s1" 2025 "fresh" 9).docId =
      some "d7" :=
  ⟨⟨by decide, by decide, by decide, by decide, by decide⟩,
    ((C8_find_or_create_reports c8State [c8Doc] "boss@x" "s1" 2025 "fresh" 9 c8Shop
      (by decide) (by decide) (by decide)).1 c8Doc (by decide) (by decide)).1,
    ((C8_find_or_create_reports c8State [c8Doc] "boss@x" "s1" 2025 "fresh" 9 c8Shop
      (by decide) (by decide) (by decide)).1 c8Doc (by decide) (by decide)).2.1⟩

/-- C9 (amended): for every non-employer session whose identity appears in no
roster of any shop stored under the requested id — even if the identity's
reverse-index list mentions the shop id — GET /api/schedule answers 403 and
returns the registry unchanged.  Employer sessions are checked for ownership
only and never against the roster (see the counterexample). -/
theorem C9_schedule_forbidden_without_roster (s : RegState)
    (role email month shopID : String) (year : Nat)
    (hrole : role ≠ "employer") (hm : month ≠ "") (hs : shopID ≠ "")
    (hfree : rosterFree s shopID email = true) :
    handleScheduleData s role email month shopID year = ⟨403, s⟩ := by
  have hval : ¬(month = "" ∨ shopID = "") := by
    intro h
    rcases h with h | h
    · exact hm h
    · exact hs h
  have hnone : findShopForEmployee s email shopID = none := by
    unfold findShopForEmployee
    rw [List.findSome?_eq_none]
    intro p hp
    have hallp := List.all_eq_true.mp hfree p hp
    rcases hg : mapGet p.2 shopID with _ | shopData
    · simp [hg]
    · have hnr : mapGet shopData.employees email = none := by
        simp only [hg] at hallp
        exact Option.isNone_iff_eq_none.mp hallp
      simp [hg, hnr]
  unfold handleScheduleData
  rw [if_neg hval, if_neg hrole, hnone]

/-- Registry for the C9 witness: `bob@x` appears in the reverse index for
shop `s1` but not in its roster (an index/roster desync). -/
def c9State : RegState := ⟨[("boss@x", [("s1", sampleShop)])], [("bob@x", ["s1"])]⟩

/-- Witness for the amended C9: `bob@x` is refused with 403 even though the
reverse index mentions the shop, and the registry is unchanged. -/
theorem C9_schedule_forbidden_without_roster_witness :
    (("employee" : String) ≠ "employer" ∧ ("STYCZEŃ" : String) ≠ "" ∧
      ("s1" : String) ≠ "" ∧ rosterFree c9State "s1" "bob@x" = true ∧
      "s1" ∈ revList c9State "bob@x") ∧
    handleScheduleData c9State "employee" "bob@x" "STYCZEŃ" "s1" 2025 = ⟨403, c9State⟩ :=
  ⟨⟨by decide, by decide, by decide, by decide, by decide⟩,
    C9_schedule_forbidden_without_roster c9State "employee" "bob@x" "STYCZEŃ" "s1" 2025
      (by decide) (by decide) (by decide) (by decide)⟩

/-- Shop for the C9 counterexample: owned by `boss@x`, who is not in its
roster, with a document for 2025. -/
def c9Shop : Shop := ⟨"s1", "Main", [("al@x", ⟨"al@x", "Al", 35⟩)], [(2025, "d1")], 0, 0⟩

/-- Registry for the C9 counterexample. -/
def c9OwnerState : RegState := ⟨[("boss@x", [("s1", c9Shop)])], [("al@x", ["s1"])]⟩

/-- C9 counterexample: an employer session whose identity is not in the
requested shop's roster is answered 200, not 403 — the employer path never
consults the roster, refuting the claim for employer sessions. -/
theorem C9_counterexample :
    mapGet c9Shop.employees "boss@x" = none ∧
    handleScheduleData c9OwnerState "employer" "boss@x" "STYCZEŃ" "s1" 2025 =
      ⟨200, c9OwnerState⟩ := by
  decide

/-- C6 (amended): a missing data file yields an empty registry, a zero-byte
file is treated like a missing one, and a malformed file makes `loadShopsData`
return an error — but `init` only logs that error and the server still
starts with an empty registry; the error is not fatal. -/
theorem C6_load_missing_empty_malformed
    (parse : String → Option (List (String × List (String × Shop)))) :
    loadShopsData parse none = .ok [] ∧
    loadShopsData parse (some "") = .ok [] ∧
    (∀ c : String, c.length ≠ 0 → parse c = none →
      loadShopsData parse (some c) = .error "failed to unmarshal shops data" ∧
      initLoadShops parse (some c) = (true, [])) := by
  refine ⟨rfl, rfl, ?_⟩
  intro c hc hp
  have h1 : loadShopsData parse (some c) = .error "failed to unmarshal shops data" := by
    simp only [loadShopsData]
    rw [if_neg hc, hp]
  refine ⟨h1, ?_⟩
  unfold initLoadShops
  rw [h1]

/-- C6 counterexample: with a malformed (unparseable) data file the load does
return an error, but the server still starts — refuting the claim that a
malformed file is a fatal startup error preventing the server from
starting. -/
theorem C6_counterexample :
    loadShopsData (fun _ => none) (some "abc") = .error "failed to unmarshal shops data" ∧
    (initLoadShops (fun _ => none) (some "abc")).1 = true := by
  exact ⟨rfl, rfl⟩

/-- Witness for the amended C6 with a parser that rejects everything and the
concrete malformed content `"abc"`. -/
theorem C6_load_missing_empty_malformed_witness :
    (("abc" : String).length ≠ 0) ∧
    loadShopsData (fun _ => none) (some "abc") = .error "failed to unmarshal shops data" ∧
    initLoadShops (fun _ => none) (some "abc") = (true, []) :=
  ⟨by decide,
    ((C6_load_missing_empty_malformed (fun _ => none)).2.2 "abc" (by decide) rfl).1,
    ((C6_load_missing_empty_malformed (fun _ => none)).2.2 "abc" (by decide) rfl).2⟩

end GrafikZabka
